import Mathlib

/-!
Shallow embedding of the log-bot storage and command layer.

Entities follow `shared/schema` (servers, channels, messages, bot status,
command logs).  Timestamps are integers (milliseconds since the epoch, the
value of `Date.prototype.getTime`).  The two repository implementations are
embedded separately: `MemStorage` models the in-memory `Map`-backed class and
`DatabaseStorage` models the drizzle/Postgres-backed class, with JS `Map`,
`Array.prototype.slice`, `sort` (stable), string search and SQL `ILIKE`
modelled explicitly.
-/

structure DiscordServer where
  id : String
  name : String
  icon : Option String
  joined_at : Int
  deriving DecidableEq, Repr

structure DiscordChannel where
  id : String
  server_id : String
  name : String
  type : String
  deriving DecidableEq, Repr

structure DiscordMessage where
  id : String
  server_id : String
  channel_id : String
  author_id : String
  author_username : String
  author_discriminator : Option String
  content : String
  created_at : Int
  deriving DecidableEq, Repr

structure BotStatus where
  id : Int
  is_online : Int
  uptime_started : Option Int
  servers_count : Int
  channels_count : Int
  messages_count : Int
  storage_usage : Int
  deriving DecidableEq, Repr

structure CommandLog where
  id : Int
  command : String
  response : String
  executed_at : Int
  deriving DecidableEq, Repr

/-- An insert-side command log (`InsertCommandLog`): no id yet. -/
structure InsertCommandLog where
  command : String
  response : String
  executed_at : Int
  deriving DecidableEq, Repr

/-- JS `Map.prototype.set` keyed by a projection: replaces the first entry
with the same key in place (preserving iteration order), otherwise appends. -/
def mapSet (key : α → String) (v : α) : List α → List α
  | [] => [v]
  | x :: xs => if key x = key v then v :: xs else x :: mapSet key v xs

/-- JS `Map.prototype.get` keyed by a projection. -/
def mapGet (key : α → String) (k : String) (l : List α) : Option α :=
  l.find? (fun x => key x == k)

/-- Search `needle` as a contiguous run at some position of `hay`. -/
def listIncludes (needle : List Char) : List Char → Bool
  | [] => needle.isEmpty
  | c :: rest => needle.isPrefixOf (c :: rest) || listIncludes needle rest

/-- JS `String.prototype.includes` (substring test). -/
def strIncludes (hay needle : String) : Bool :=
  listIncludes needle.toList hay.toList

/-- JS `String.prototype.startsWith` (list-structural, kernel-reducible). -/
def strStartsWith (s pre : String) : Bool :=
  pre.toList.isPrefixOf s.toList

/-- JS `String.prototype.toLowerCase` (character-wise). -/
def strToLower (s : String) : String :=
  String.mk (s.toList.map Char.toLower)

/-- Accumulator pass of JS `String.prototype.split(' ')`: split on every
space, keeping empty segments. -/
def jsSplitSpaceAux : List Char → List Char → List (List Char)
  | acc, [] => [acc.reverse]
  | acc, c :: cs =>
    if c = ' ' then acc.reverse :: jsSplitSpaceAux [] cs
    else jsSplitSpaceAux (c :: acc) cs

/-- JS `command.split(' ')`. -/
def jsSplitSpace (s : String) : List String :=
  (jsSplitSpaceAux [] s.toList).map String.mk

/-- JS truthiness of an optional string (`undefined` and `""` are falsy). -/
def jsTruthyStr : Option String → Bool
  | none => false
  | some s => s != ""

/-- JS `Array.prototype.slice` index normalization: a negative index counts
from the end of the array, and indices are clamped to `[0, len]`. -/
def jsSliceIndex (len : Nat) (i : Int) : Nat :=
  if i < 0 then ((len : Int) + i).toNat else min i.toNat len

/-- JS `Array.prototype.slice(start, end)`. -/
def jsSlice (l : List α) (s e : Int) : List α :=
  (l.take (jsSliceIndex l.length e)).drop (jsSliceIndex l.length s)

/-- Stable sort, descending by an integer key: the model of the stable JS
`Array.prototype.sort` with comparator `(a, b) => key(b) - key(a)`. -/
def sortDescBy (key : α → Int) (l : List α) : List α :=
  l.insertionSort (fun a b => key b ≤ key a)

/-- The fixed retention window: 14 days in milliseconds
(`sub(new Date(), { weeks: 2 })`). -/
def twoWeeksMs : Int := 14 * 24 * 60 * 60 * 1000

/-- Options record of `getMessages` (absent fields are `undefined`). -/
structure GetMessagesOptions where
  serverId : Option String := none
  channelId : Option String := none
  search : Option String := none
  limit : Option Int := none
  offset : Option Int := none
  deriving DecidableEq, Repr

/-- `if (serverId) filter(...)` of `MemStorage.getMessages`. -/
def serverFilter (serverId : Option String) (l : List DiscordMessage) :
    List DiscordMessage :=
  match serverId with
  | some s => if s != "" then l.filter (fun msg => msg.server_id == s) else l
  | none => l

/-- `if (channelId) filter(...)` of `MemStorage.getMessages`. -/
def channelFilter (channelId : Option String) (l : List DiscordMessage) :
    List DiscordMessage :=
  match channelId with
  | some c => if c != "" then l.filter (fun msg => msg.channel_id == c) else l
  | none => l

/-- `if (search) filter(...)` of `MemStorage.getMessages`: case-insensitive
`includes` on content or author username. -/
def searchFilter (search : Option String) (l : List DiscordMessage) :
    List DiscordMessage :=
  match search with
  | some s =>
    if s != "" then
      let searchLower := strToLower s
      l.filter (fun msg =>
        strIncludes (strToLower msg.content) searchLower ||
        strIncludes (strToLower msg.author_username) searchLower)
    else l
  | none => l

/-- The conjunctive filter pipeline of `MemStorage.getMessages`: each truthy
option narrows the list, in source order (server, channel, search). -/
def memFilterMessages (options : GetMessagesOptions) (l : List DiscordMessage) :
    List DiscordMessage :=
  searchFilter options.search
    (channelFilter options.channelId (serverFilter options.serverId l))

/-- State of the `MemStorage` class (the `users` map is omitted: no claim
touches it). -/
structure MemStorage where
  discordServers : List DiscordServer
  discordChannels : List DiscordChannel
  discordMessages : List DiscordMessage
  botStatusRecord : BotStatus
  commandLogs : List CommandLog
  commandLogCurrentId : Int
  deriving DecidableEq, Repr

/-- The initial bot-status record written by the `MemStorage` constructor
and by `DatabaseStorage.initDatabase`. -/
def initialBotStatus : BotStatus :=
  { id := 1, is_online := 0, uptime_started := none,
    servers_count := 0, channels_count := 0, messages_count := 0,
    storage_usage := 0 }

/-- The `MemStorage` constructor. -/
def MemStorage.init : MemStorage :=
  { discordServers := [], discordChannels := [], discordMessages := [],
    botStatusRecord := initialBotStatus, commandLogs := [],
    commandLogCurrentId := 1 }

/-- `MemStorage.calculateStorageUsage`: 1 KB per stored message. -/
def MemStorage.calculateStorageUsage (st : MemStorage) : Int :=
  st.discordMessages.length

/-- `MemStorage.createServer`: `Map.set` of the whole record, then
`servers_count := map size`. -/
def MemStorage.createServer (st : MemStorage) (server : DiscordServer) :
    DiscordServer × MemStorage :=
  let servers := mapSet (fun s => s.id) server st.discordServers
  (server,
    { st with
      discordServers := servers,
      botStatusRecord := { st.botStatusRecord with servers_count := servers.length } })

/-- `MemStorage.createChannel`: `Map.set` of the whole record, then
`channels_count := map size`. -/
def MemStorage.createChannel (st : MemStorage) (channel : DiscordChannel) :
    DiscordChannel × MemStorage :=
  let channels := mapSet (fun c => c.id) channel st.discordChannels
  (channel,
    { st with
      discordChannels := channels,
      botStatusRecord := { st.botStatusRecord with channels_count := channels.length } })

/-- `MemStorage.createMessage`: `Map.set` of the whole record, then
recompute `messages_count` and `storage_usage`. -/
def MemStorage.createMessage (st : MemStorage) (message : DiscordMessage) :
    DiscordMessage × MemStorage :=
  let messages := mapSet (fun m => m.id) message st.discordMessages
  (message,
    { st with
      discordMessages := messages,
      botStatusRecord :=
        { st.botStatusRecord with
          messages_count := messages.length,
          storage_usage := messages.length } })

/-- `MemStorage.deleteOldMessages`: collect ids with
`created_at < now - 2 weeks`, delete them, recompute counters, return the
number deleted. -/
def MemStorage.deleteOldMessages (st : MemStorage) (now : Int) : Int × MemStorage :=
  let twoWeeksAgo := now - twoWeeksMs
  let messagesToDelete := st.discordMessages.filter
    (fun m => decide (m.created_at < twoWeeksAgo))
  let remaining := st.discordMessages.filter
    (fun m => ! decide (m.created_at < twoWeeksAgo))
  ((messagesToDelete.length : Int),
    { st with
      discordMessages := remaining,
      botStatusRecord :=
        { st.botStatusRecord with
          messages_count := remaining.length,
          storage_usage := remaining.length } })

/-- `MemStorage.getMessages`: truthy filters conjunctively, stable sort by
`created_at` descending, `slice(offset, offset + limit)`, total before
pagination.  `limit` defaults to 10, `offset` to 0. -/
def MemStorage.getMessages (st : MemStorage) (options : GetMessagesOptions) :
    List DiscordMessage × Nat :=
  let limit := options.limit.getD 10
  let offset := options.offset.getD 0
  let filteredMessages := memFilterMessages options st.discordMessages
  let sorted := sortDescBy (fun m => m.created_at) filteredMessages
  (jsSlice sorted offset (offset + limit), filteredMessages.length)

/-- `MemStorage.getMessage`. -/
def MemStorage.getMessage (st : MemStorage) (id : String) : Option DiscordMessage :=
  mapGet (fun m => m.id) id st.discordMessages

/-- `MemStorage.getServer`. -/
def MemStorage.getServer (st : MemStorage) (id : String) : Option DiscordServer :=
  mapGet (fun s => s.id) id st.discordServers

/-- `MemStorage.getServers`. -/
def MemStorage.getServers (st : MemStorage) : List DiscordServer :=
  st.discordServers

/-- `MemStorage.getChannel`. -/
def MemStorage.getChannel (st : MemStorage) (id : String) : Option DiscordChannel :=
  mapGet (fun c => c.id) id st.discordChannels

/-- `MemStorage.getChannels` (optional truthy server filter). -/
def MemStorage.getChannels (st : MemStorage) (serverId : Option String := none) :
    List DiscordChannel :=
  if jsTruthyStr serverId then
    st.discordChannels.filter (fun c => c.server_id == serverId.getD "")
  else st.discordChannels

/-- `MemStorage.getBotStatus` (always present). -/
def MemStorage.getBotStatus (st : MemStorage) : BotStatus :=
  st.botStatusRecord

/-- `MemStorage.getCommandLogs(limit = 100)`: copy, stable sort by
`executed_at` descending, `slice(0, limit)`. -/
def MemStorage.getCommandLogs (st : MemStorage) (limit : Int := 100) : List CommandLog :=
  jsSlice (sortDescBy (fun l => l.executed_at) st.commandLogs) 0 limit

/-- `MemStorage.createCommandLog`: append with the auto-increment id; when
more than 1000 logs are stored, sort newest-first and keep the first 1000. -/
def MemStorage.createCommandLog (st : MemStorage) (log : InsertCommandLog) :
    CommandLog × MemStorage :=
  let newLog : CommandLog :=
    { id := st.commandLogCurrentId, command := log.command,
      response := log.response, executed_at := log.executed_at }
  let logs := st.commandLogs ++ [newLog]
  let logs' :=
    if 1000 < logs.length then
      jsSlice (sortDescBy (fun l => l.executed_at) logs) 0 1000
    else logs
  (newLog,
    { st with commandLogs := logs',
              commandLogCurrentId := st.commandLogCurrentId + 1 })

example : strIncludes "Hello World" "lo W" = true := by decide
example : strIncludes "Hello" "z" = false := by decide
example : jsSlice [1, 2, 3, 4, 5] 0 (-2) = [1, 2, 3] := by decide
example : jsSlice [1, 2, 3, 4, 5] 1 3 = [2, 3] := by decide
example : sortDescBy (fun n => (n : Int)) [1, 3, 2] = [3, 2, 1] := by decide

/-- SQL `LIKE` pattern matching on character lists: `%` matches any run
(possibly empty, via any suffix of the value), `_` matches exactly one
character. -/
def likeMatch : List Char → List Char → Bool
  | [], cs => cs.isEmpty
  | '%' :: ps, cs => cs.tails.any (fun suffix => likeMatch ps suffix)
  | '_' :: _, [] => false
  | '_' :: ps, _ :: cs => likeMatch ps cs
  | _ :: _, [] => false
  | p :: ps, c :: cs => p == c && likeMatch ps cs

/-- Postgres `ILIKE`: case-insensitive `LIKE`. -/
def ilike (value pattern : String) : Bool :=
  likeMatch (strToLower pattern).toList (strToLower value).toList

/-- The conjunctive `WHERE` clause built by `DatabaseStorage.getMessages`;
the search condition is `content ILIKE '%s%' OR author_username ILIKE '%s%'`. -/
def dbMessageCond (serverId channelId search : Option String)
    (msg : DiscordMessage) : Bool :=
  (match serverId with
    | some s => if s != "" then msg.server_id == s else true
    | none => true) &&
  (match channelId with
    | some c => if c != "" then msg.channel_id == c else true
    | none => true) &&
  (match search with
    | some s =>
      if s != "" then
        ilike msg.content ("%" ++ s ++ "%") ||
        ilike msg.author_username ("%" ++ s ++ "%")
      else true
    | none => true)

/-- State of the `DatabaseStorage` class: each drizzle table is a list of
rows in insertion order; `nextCommandLogId` models the `serial` column. -/
structure DatabaseStorage where
  discordServers : List DiscordServer
  discordChannels : List DiscordChannel
  discordMessages : List DiscordMessage
  botStatusRows : List BotStatus
  commandLogs : List CommandLog
  nextCommandLogId : Int
  deriving DecidableEq, Repr

/-- A fresh database after `initDatabase` inserted the bot-status row. -/
def DatabaseStorage.init : DatabaseStorage :=
  { discordServers := [], discordChannels := [], discordMessages := [],
    botStatusRows := [initialBotStatus], commandLogs := [],
    nextCommandLogId := 1 }

/-- `DatabaseStorage.getServer`: `SELECT ... WHERE id = $1`, first row. -/
def DatabaseStorage.getServer (db : DatabaseStorage) (id : String) :
    Option DiscordServer :=
  (db.discordServers.filter (fun s => s.id == id)).head?

/-- `DatabaseStorage.getChannel`. -/
def DatabaseStorage.getChannel (db : DatabaseStorage) (id : String) :
    Option DiscordChannel :=
  (db.discordChannels.filter (fun c => c.id == id)).head?

/-- `DatabaseStorage.getMessage`. -/
def DatabaseStorage.getMessage (db : DatabaseStorage) (id : String) :
    Option DiscordMessage :=
  (db.discordMessages.filter (fun m => m.id == id)).head?

/-- `DatabaseStorage.getBotStatus`: the `id = 1` row. -/
def DatabaseStorage.getBotStatus (db : DatabaseStorage) : Option BotStatus :=
  (db.botStatusRows.filter (fun r => r.id == 1)).head?

/-- `DatabaseStorage.updateServerCount`: `servers_count := count(*)`. -/
def DatabaseStorage.updateServerCount (db : DatabaseStorage) : DatabaseStorage :=
  let count : Int := db.discordServers.length
  let rows := db.botStatusRows.map
    (fun r => if r.id == 1 then { r with servers_count := count } else r)
  { db with botStatusRows := rows }

/-- `DatabaseStorage.updateChannelCount`. -/
def DatabaseStorage.updateChannelCount (db : DatabaseStorage) : DatabaseStorage :=
  let count : Int := db.discordChannels.length
  let rows := db.botStatusRows.map
    (fun r => if r.id == 1 then { r with channels_count := count } else r)
  { db with botStatusRows := rows }

/-- `DatabaseStorage.updateMessageCount`: recompute `messages_count` and
`storage_usage` (1 KB per message) together. -/
def DatabaseStorage.updateMessageCount (db : DatabaseStorage) : DatabaseStorage :=
  let count : Int := db.discordMessages.length
  let rows := db.botStatusRows.map
    (fun r => if r.id == 1 then
        { r with messages_count := count, storage_usage := count } else r)
  { db with botStatusRows := rows }

/-- `DatabaseStorage.createServer`: if the id exists, `UPDATE` only `name`
and `icon` and return the updated row; otherwise `INSERT` and recompute the
server count. -/
def DatabaseStorage.createServer (db : DatabaseStorage) (server : DiscordServer) :
    Option DiscordServer × DatabaseStorage :=
  match db.getServer server.id with
  | some _ =>
    let updated := db.discordServers.map
      (fun s => if s.id == server.id then
          { s with name := server.name, icon := server.icon } else s)
    ((updated.filter (fun s => s.id == server.id)).head?,
      { db with discordServers := updated })
  | none =>
    let db' := { db with discordServers := db.discordServers ++ [server] }
    (some server, db'.updateServerCount)

/-- `DatabaseStorage.createChannel`: on an existing id, `UPDATE` only `name`
and `type`; otherwise `INSERT` and recompute the channel count. -/
def DatabaseStorage.createChannel (db : DatabaseStorage) (channel : DiscordChannel) :
    Option DiscordChannel × DatabaseStorage :=
  match db.getChannel channel.id with
  | some _ =>
    let updated := db.discordChannels.map
      (fun c => if c.id == channel.id then
          { c with name := channel.name, type := channel.type } else c)
    ((updated.filter (fun c => c.id == channel.id)).head?,
      { db with discordChannels := updated })
  | none =>
    let db' := { db with discordChannels := db.discordChannels ++ [channel] }
    (some channel, db'.updateChannelCount)

/-- `DatabaseStorage.createMessage`: no-op returning the stored row when the
id already exists; otherwise `INSERT` and recompute the message count. -/
def DatabaseStorage.createMessage (db : DatabaseStorage) (message : DiscordMessage) :
    Option DiscordMessage × DatabaseStorage :=
  match db.getMessage message.id with
  | some existing => (some existing, db)
  | none =>
    let db' := { db with discordMessages := db.discordMessages ++ [message] }
    (some message, db'.updateMessageCount)

/-- `DatabaseStorage.deleteOldMessages`: `DELETE ... WHERE created_at < now
- 2 weeks RETURNING *`, recompute counts, return the number of deleted rows. -/
def DatabaseStorage.deleteOldMessages (db : DatabaseStorage) (now : Int) :
    Int × DatabaseStorage :=
  let twoWeeksAgo := now - twoWeeksMs
  let deleted := db.discordMessages.filter
    (fun m => decide (m.created_at < twoWeeksAgo))
  let remaining := db.discordMessages.filter
    (fun m => ! decide (m.created_at < twoWeeksAgo))
  let db' := { db with discordMessages := remaining }
  ((deleted.length : Int), db'.updateMessageCount)

/-- `DatabaseStorage.getMessages`: one conjunctive `WHERE` clause, count
before pagination, `ORDER BY created_at DESC LIMIT limit OFFSET offset`. -/
def DatabaseStorage.getMessages (db : DatabaseStorage)
    (options : GetMessagesOptions) : List DiscordMessage × Nat :=
  let limit := options.limit.getD 10
  let offset := options.offset.getD 0
  let filtered := db.discordMessages.filter
    (dbMessageCond options.serverId options.channelId options.search)
  let sorted := sortDescBy (fun m => m.created_at) filtered
  ((sorted.drop offset.toNat).take limit.toNat, filtered.length)

/-- `DatabaseStorage.getCommandLogs(limit = 100)`:
`ORDER BY executed_at DESC LIMIT limit`. -/
def DatabaseStorage.getCommandLogs (db : DatabaseStorage) (limit : Int := 100) :
    List CommandLog :=
  (sortDescBy (fun l => l.executed_at) db.commandLogs).take limit.toNat

/-- `DatabaseStorage.createCommandLog`: plain `INSERT ... RETURNING` with the
serial id; no trimming. -/
def DatabaseStorage.createCommandLog (db : DatabaseStorage)
    (log : InsertCommandLog) : CommandLog × DatabaseStorage :=
  let newLog : CommandLog :=
    { id := db.nextCommandLogId, command := log.command,
      response := log.response, executed_at := log.executed_at }
  (newLog,
    { db with commandLogs := db.commandLogs ++ [newLog],
              nextCommandLogId := db.nextCommandLogId + 1 })

example : likeMatch "%a%".toList "xax".toList = true := by decide
example : likeMatch "%_%".toList "x".toList = true := by decide
example : likeMatch "%a_b%".toList "zaxbz".toList = true := by decide
example : likeMatch "%ab%".toList "xaxb".toList = false := by decide

/-- Longest leading digit run of a character list, as a number (`none` when
there is no leading digit), per JS `parseInt` radix 10. -/
def parseDigitsRun (cs : List Char) : Option Nat :=
  let ds := cs.takeWhile (fun c => c.isDigit)
  if ds.isEmpty then none
  else some (ds.foldl (fun acc c => acc * 10 + (c.toNat - 48)) 0)

/-- JS `parseInt(s)` (radix 10): skip leading whitespace, optional sign,
longest digit prefix; `none` models `NaN`. -/
def parseIntJS (s : String) : Option Int :=
  let cs := s.toList.dropWhile (fun c => c.isWhitespace)
  match cs with
  | '-' :: rest => (parseDigitsRun rest).map (fun n => -(n : Int))
  | '+' :: rest => (parseDigitsRun rest).map (fun n => (n : Int))
  | _ => (parseDigitsRun cs).map (fun n => (n : Int))

/-- Try the regex `<#(\d+)>` at the head of the list; on success return the
captured digit group. -/
def channelMentionAt : List Char → Option String
  | '<' :: '#' :: rest =>
    let ds := rest.takeWhile (fun c => c.isDigit)
    if ds.isEmpty then none
    else
      match rest.dropWhile (fun c => c.isDigit) with
      | '>' :: _ => some (String.mk ds)
      | _ => none
  | _ => none

/-- Unanchored search of `<#(\d+)>` (JS `String.prototype.match`). -/
def matchChannelMentionList : List Char → Option String
  | [] => none
  | c :: rest =>
    match channelMentionAt (c :: rest) with
    | some d => some d
    | none => matchChannelMentionList rest

/-- `args[0].match(/<#(\d+)>/)`, capture group 1. -/
def jsMatchChannel (s : String) : Option String :=
  matchChannelMentionList s.toList

def msPerDay : Int := 1000 * 60 * 60 * 24

def msPerHour : Int := 1000 * 60 * 60

def msPerMinute : Int := 1000 * 60

/-- The shared uptime-formatting arithmetic of `formatUptime` (utils) and
`DiscordBot.getUptime`: `Math.floor` is integer floor division and JS `%` is
truncated remainder. -/
def formatUptimeMs (uptimeMs : Int) : String :=
  let days := Int.fdiv uptimeMs msPerDay
  let hours := Int.fdiv (Int.tmod uptimeMs msPerDay) msPerHour
  let minutes := Int.fdiv (Int.tmod uptimeMs msPerHour) msPerMinute
  if 0 < days then
    toString days ++ "d " ++ toString hours ++ "h " ++ toString minutes ++ "m"
  else if 0 < hours then
    toString hours ++ "h " ++ toString minutes ++ "m"
  else
    toString minutes ++ "m"

/-- `formatUptime` from `server/utils.ts`: zero-duration sentinel "0m" when
no start time is recorded. -/
def formatUptime (uptimeStarted : Option Int) (now : Int) : String :=
  match uptimeStarted with
  | none => "0m"
  | some t => formatUptimeMs (now - t)

/-- The connection state of the `DiscordBot` class that `getUptime` reads. -/
structure DiscordBot where
  startTime : Option Int
  deriving DecidableEq, Repr

/-- `DiscordBot.getUptime` from `server/discord-bot.ts` (same body as
`formatUptime`). -/
def DiscordBot.getUptime (bot : DiscordBot) (now : Int) : String :=
  match bot.startTime with
  | none => "0m"
  | some t => formatUptimeMs (now - t)

/-- `formatHelpCommand` (static text). -/
def formatHelpCommand : String :=
  "**Available Commands:**\n" ++
  "`!messages [channel] [count]` - Get recent messages\n" ++
  "`!stats` - Display message statistics\n" ++
  "`!help` - Show command list\n" ++
  "`!clear [days]` - Clear message logs older than X days"

/-- The channel reference parsed by `formatMessagesCommand` (only the first
argument is examined). -/
def messagesCommandChannelId (args : List String) : Option String :=
  match args with
  | [] => none
  | a :: _ => jsMatchChannel a

/-- The limit used by `formatMessagesCommand`: 5 by default; when a second
argument parses as a number `n`, `Math.min(20, n)`. -/
def messagesCommandLimit (args : List String) : Int :=
  if 1 < args.length then
    match parseIntJS (args.getD 1 "") with
    | some n => min 20 n
    | none => 5
  else 5

/-- The repository query issued by `formatMessagesCommand`
(`storage.getMessages({ channelId, limit })`). -/
def messagesCommandPage (args : List String) (st : MemStorage) :
    List DiscordMessage × Nat :=
  st.getMessages
    { channelId := messagesCommandChannelId args,
      limit := some (messagesCommandLimit args) }

/-- One formatted line of `formatMessagesCommand`:
`**author** (date): content.substring(0, 100)` plus an ellipsis when the
content is longer than 100 characters.  `fmtDate` abstracts the `date-fns`
`format(..., 'MMM d, yyyy HH:mm')` call. -/
def messageLine (fmtDate : Int → String) (msg : DiscordMessage) : String :=
  "**" ++ msg.author_username ++ "** (" ++ fmtDate msg.created_at ++ "): " ++
  String.mk (msg.content.toList.take 100) ++
  (if 100 < msg.content.length then "..." else "")

/-- `formatMessagesCommand` from `server/utils.ts`. -/
def formatMessagesCommand (fmtDate : Int → String) (args : List String)
    (st : MemStorage) : String :=
  let channelId := messagesCommandChannelId args
  let res := messagesCommandPage args st
  let messages := res.1
  let total := res.2
  if messages.isEmpty then "No messages found with the given criteria."
  else
    let channelName :=
      match channelId with
      | some cid =>
        match st.getChannel cid with
        | some ch => "#" ++ ch.name
        | none => "all channels"
      | none => "all channels"
    let formattedMessages :=
      String.intercalate "\n\n" (messages.map (messageLine fmtDate))
    "**Recent Messages from " ++ channelName ++ "** (Showing " ++
      toString messages.length ++ " of " ++ toString total ++
      " messages):\n\n" ++ formattedMessages

/-- `formatStatsCommand` from `server/utils.ts` (the `MemStorage` bot status
always exists, so the `!status` early return is unreachable here). -/
def formatStatsCommand (st : MemStorage) (bot : DiscordBot) (now : Int) : String :=
  let status := st.getBotStatus
  let servers := st.getServers
  let channels := st.getChannels
  let messageCount := (st.getMessages {}).2
  "**Bot Statistics:**\n" ++
  "Status: " ++ (if status.is_online != 0 then "Online" else "Offline") ++ "\n" ++
  "Uptime: " ++ bot.getUptime now ++ "\n" ++
  "Monitoring " ++ toString servers.length ++ " servers and " ++
    toString channels.length ++ " channels\n" ++
  "Total Messages: " ++ toString messageCount ++ "\n" ++
  "Storage Usage: " ++ toString status.storage_usage ++ " KB"

/-- The echoed `days` value of `formatClearCommand`: the first argument when
it parses as a number, otherwise 14. -/
def clearCommandDays (args : List String) : Int :=
  match args with
  | [] => 14
  | a :: _ =>
    match parseIntJS a with
    | some n => n
    | none => 14

/-- `formatClearCommand` from `server/utils.ts`: echoes `days` but always
calls the fixed-window `deleteOldMessages`. -/
def formatClearCommand (args : List String) (st : MemStorage) (now : Int) :
    String × MemStorage :=
  let days := clearCommandDays args
  let res := st.deleteOldMessages now
  ("Cleared " ++ toString res.1 ++ " messages older than " ++ toString days ++
    " days.", res.2)

/-- `executeCommand` from `server/utils.ts`: dispatch on the verb; an
unknown verb throws (modelled as `Except.error`). -/
def executeCommand (fmtDate : Int → String) (command : String)
    (args : List String) (st : MemStorage) (bot : DiscordBot) (now : Int) :
    Except String String × MemStorage :=
  if command = "!help" then (Except.ok formatHelpCommand, st)
  else if command = "!messages" then
    (Except.ok (formatMessagesCommand fmtDate args st), st)
  else if command = "!stats" then (Except.ok (formatStatsCommand st bot now), st)
  else if command = "!clear" then
    let r := formatClearCommand args st now
    (Except.ok r.1, r.2)
  else (Except.error "Unknown command. Type !help for a list of commands", st)

/-- An HTTP outcome of the `POST /api/execute-command` route. -/
structure RouteResult where
  status : Nat
  body : String
  deriving DecidableEq, Repr

/-- The `POST /api/execute-command` handler from `server/routes.ts`.
`body = none` models a request whose `command` is not a string, `bot = none`
a missing bot, `botReady` the `client.isReady()` check.  A thrown error is
caught, answered with 500, and logged (the body command is a string there). -/
def executeCommandRoute (fmtDate : Int → String) (st : MemStorage)
    (bot : Option DiscordBot) (botReady : Bool) (now : Int)
    (body : Option String) : RouteResult × MemStorage :=
  match body with
  | none => ({ status := 400, body := "Invalid command format" }, st)
  | some command =>
    match bot with
    | none => ({ status := 503, body := "Discord bot is not connected" }, st)
    | some b =>
      let commandArgs := jsSplitSpace command
      if ! strStartsWith (commandArgs.headD "") "!" then
        ({ status := 400, body := "Command must start with !" }, st)
      else if botReady then
        match executeCommand fmtDate (commandArgs.headD "") commandArgs.tail st b now with
        | (Except.ok response, st1) =>
          let st2 := (st1.createCommandLog
            { command := command, response := response, executed_at := now }).2
          ({ status := 200, body := response }, st2)
        | (Except.error e, st1) =>
          let st2 := (st1.createCommandLog
            { command := command, response := "Error: " ++ e, executed_at := now }).2
          ({ status := 500, body := "Error executing command: " ++ e }, st2)
      else
        let response := "Bot is not connected to Discord"
        let st2 := (st.createCommandLog
          { command := command, response := response, executed_at := now }).2
        ({ status := 200, body := response }, st2)

example : parseIntJS "7" = some 7 := by decide
example : parseIntJS "-5" = some (-5) := by decide
example : parseIntJS "abc" = none := by decide
example : jsMatchChannel "<#123>" = some "123" := by decide
example : jsMatchChannel "50" = none := by decide
example : formatUptimeMs 93780000 = "1d 2h 3m" := by decide
example : formatUptimeMs 7380000 = "2h 3m" := by decide
example : formatUptimeMs 240000 = "4m" := by decide

lemma length_filter_not_add (p : α → Bool) (l : List α) :
    (l.filter (fun a => ! p a)).length + (l.filter p).length = l.length := by
  induction l with
  | nil => rfl
  | cons a t ih =>
    by_cases h : p a = true <;> simp [List.filter_cons, h] <;> omega

lemma mem_deleteOldMessages (st : MemStorage) (now : Int) (m : DiscordMessage) :
    m ∈ (st.deleteOldMessages now).2.discordMessages ↔
      m ∈ st.discordMessages ∧ now - twoWeeksMs ≤ m.created_at := by
  simp [MemStorage.deleteOldMessages, List.mem_filter, not_lt]

lemma deleteOldMessages_count (st : MemStorage) (now : Int) :
    (st.deleteOldMessages now).1 +
      ((st.deleteOldMessages now).2.discordMessages.length : Int) =
      (st.discordMessages.length : Int) := by
  have h := length_filter_not_add
    (fun m : DiscordMessage => decide (m.created_at < now - twoWeeksMs))
    st.discordMessages
  simp only [MemStorage.deleteOldMessages]
  push_cast [← h]
  ring

lemma db_mem_deleteOldMessages (db : DatabaseStorage) (now : Int) (m : DiscordMessage) :
    m ∈ (db.deleteOldMessages now).2.discordMessages ↔
      m ∈ db.discordMessages ∧ now - twoWeeksMs ≤ m.created_at := by
  simp [DatabaseStorage.deleteOldMessages, DatabaseStorage.updateMessageCount,
    List.mem_filter, not_lt]

lemma db_deleteOldMessages_count (db : DatabaseStorage) (now : Int) :
    (db.deleteOldMessages now).1 +
      ((db.deleteOldMessages now).2.discordMessages.length : Int) =
      (db.discordMessages.length : Int) := by
  have h := length_filter_not_add
    (fun m : DiscordMessage => decide (m.created_at < now - twoWeeksMs))
    db.discordMessages
  simp only [DatabaseStorage.deleteOldMessages, DatabaseStorage.updateMessageCount]
  push_cast [← h]
  ring

/-- C3: `deleteOldMessages()` deletes exactly the stored messages strictly
older than `now - 14 days` (the message at `now - 15 d` and the one at
`now - 14 d - 1 s` go, the one at `now - 13 d` stays) and returns the number
deleted, in both the in-memory and the database-backed implementation. -/
theorem deleteOldMessages_retention (st : MemStorage) (db : DatabaseStorage)
    (now : Int) :
    (∀ m, m ∈ (st.deleteOldMessages now).2.discordMessages ↔
        m ∈ st.discordMessages ∧ now - twoWeeksMs ≤ m.created_at) ∧
    (st.deleteOldMessages now).1 +
        ((st.deleteOldMessages now).2.discordMessages.length : Int) =
      (st.discordMessages.length : Int) ∧
    (∀ m, m ∈ st.discordMessages → m.created_at = now - 15 * msPerDay →
        m ∉ (st.deleteOldMessages now).2.discordMessages) ∧
    (∀ m, m ∈ st.discordMessages → m.created_at = now - 14 * msPerDay - 1000 →
        m ∉ (st.deleteOldMessages now).2.discordMessages) ∧
    (∀ m, m ∈ st.discordMessages → m.created_at = now - 13 * msPerDay →
        m ∈ (st.deleteOldMessages now).2.discordMessages) ∧
    (∀ m, m ∈ (db.deleteOldMessages now).2.discordMessages ↔
        m ∈ db.discordMessages ∧ now - twoWeeksMs ≤ m.created_at) ∧
    (db.deleteOldMessages now).1 +
        ((db.deleteOldMessages now).2.discordMessages.length : Int) =
      (db.discordMessages.length : Int) := by
  refine ⟨fun m => mem_deleteOldMessages st now m, deleteOldMessages_count st now,
    ?_, ?_, ?_, fun m => db_mem_deleteOldMessages db now m,
    db_deleteOldMessages_count db now⟩
  · intro m hm hts
    rw [mem_deleteOldMessages]
    intro h
    have := h.2
    rw [hts] at this
    simp only [twoWeeksMs, msPerDay] at this
    omega
  · intro m hm hts
    rw [mem_deleteOldMessages]
    intro h
    have := h.2
    rw [hts] at this
    simp only [twoWeeksMs, msPerDay] at this
    omega
  · intro m hm hts
    rw [mem_deleteOldMessages]
    refine ⟨hm, ?_⟩
    rw [hts]
    simp only [twoWeeksMs, msPerDay]
    omega

/-- A sample message record (fixed routing fields, chosen id/timestamp). -/
def msgAt (id : String) (t : Int) : DiscordMessage :=
  { id := id, server_id := "s", channel_id := "c", author_id := "a",
    author_username := "u", author_discriminator := none, content := "x",
    created_at := t }

/-- A sample store holding messages at `now - 15 d`, `now - 14 d - 1 s` and
`now - 13 d` for `now = 100 d`. -/
def retentionSampleState : MemStorage :=
  { MemStorage.init with discordMessages :=
      [msgAt "m1" (100 * msPerDay - 15 * msPerDay),
       msgAt "m2" (100 * msPerDay - 14 * msPerDay - 1000),
       msgAt "m3" (100 * msPerDay - 13 * msPerDay)] }

/-- Witness for C3 at a concrete store: the 15-day-old and
14-day-1-second-old messages are deleted, the 13-day-old one survives. -/
theorem deleteOldMessages_retention_witness :
    msgAt "m1" (100 * msPerDay - 15 * msPerDay) ∉
      (retentionSampleState.deleteOldMessages (100 * msPerDay)).2.discordMessages ∧
    msgAt "m2" (100 * msPerDay - 14 * msPerDay - 1000) ∉
      (retentionSampleState.deleteOldMessages (100 * msPerDay)).2.discordMessages ∧
    msgAt "m3" (100 * msPerDay - 13 * msPerDay) ∈
      (retentionSampleState.deleteOldMessages (100 * msPerDay)).2.discordMessages := by
  have h := deleteOldMessages_retention retentionSampleState DatabaseStorage.init
    (100 * msPerDay)
  refine ⟨h.2.2.1 _ (by decide) rfl, h.2.2.2.1 _ (by decide) rfl,
    h.2.2.2.2.1 _ (by decide) rfl⟩

/-- C9: `!clear d` echoes the parsed `d` and the number of deleted messages
in its response, but the deletion it performs is exactly the repository's
fixed 14-day sweep, independent of `d`; with no argument 14 is echoed. -/
theorem clear_command_echoes_days_uses_fixed_window
    (st : MemStorage) (now : Int) (s : String) (rest : List String) (d : Int)
    (h : parseIntJS s = some d) :
    (formatClearCommand (s :: rest) st now).1 =
      "Cleared " ++ toString (st.deleteOldMessages now).1 ++
      " messages older than " ++ toString d ++ " days." ∧
    (formatClearCommand (s :: rest) st now).2 = (st.deleteOldMessages now).2 ∧
    (∀ m, m ∈ (formatClearCommand (s :: rest) st now).2.discordMessages ↔
      m ∈ st.discordMessages ∧ now - twoWeeksMs ≤ m.created_at) ∧
    (formatClearCommand ([] : List String) st now).1 =
      "Cleared " ++ toString (st.deleteOldMessages now).1 ++
      " messages older than " ++ toString (14 : Int) ++ " days." := by
  refine ⟨?_, ?_, ?_, ?_⟩
  · simp [formatClearCommand, clearCommandDays, h]
  · simp [formatClearCommand]
  · intro m
    have : (formatClearCommand (s :: rest) st now).2 = (st.deleteOldMessages now).2 := by
      simp [formatClearCommand]
    rw [this]
    exact mem_deleteOldMessages st now m
  · simp [formatClearCommand, clearCommandDays]

/-- Witness for C9: `!clear 7` against the empty store. -/
theorem clear_command_witness :
    (formatClearCommand ["7"] MemStorage.init 0).1 =
      "Cleared " ++ toString (MemStorage.init.deleteOldMessages 0).1 ++
      " messages older than " ++ toString (7 : Int) ++ " days." ∧
    (formatClearCommand ["7"] MemStorage.init 0).2 =
      (MemStorage.init.deleteOldMessages 0).2 ∧
    (∀ m, m ∈ (formatClearCommand ["7"] MemStorage.init 0).2.discordMessages ↔
      m ∈ MemStorage.init.discordMessages ∧ 0 - twoWeeksMs ≤ m.created_at) ∧
    (formatClearCommand ([] : List String) MemStorage.init 0).1 =
      "Cleared " ++ toString (MemStorage.init.deleteOldMessages 0).1 ++
      " messages older than " ++ toString (14 : Int) ++ " days." :=
  clear_command_echoes_days_uses_fixed_window MemStorage.init 0 "7" [] 7 (by decide)

/-- One mutating repository call (the four operations C2 quantifies over). -/
inductive StorageOp where
  | createServer (s : DiscordServer)
  | createChannel (c : DiscordChannel)
  | createMessage (m : DiscordMessage)
  | deleteOldMessages (now : Int)
  deriving DecidableEq, Repr

def MemStorage.applyOp (st : MemStorage) : StorageOp → MemStorage
  | .createServer s => (st.createServer s).2
  | .createChannel c => (st.createChannel c).2
  | .createMessage m => (st.createMessage m).2
  | .deleteOldMessages now => (st.deleteOldMessages now).2

def MemStorage.applyOps (st : MemStorage) (ops : List StorageOp) : MemStorage :=
  ops.foldl MemStorage.applyOp st

def DatabaseStorage.applyOp (db : DatabaseStorage) : StorageOp → DatabaseStorage
  | .createServer s => (db.createServer s).2
  | .createChannel c => (db.createChannel c).2
  | .createMessage m => (db.createMessage m).2
  | .deleteOldMessages now => (db.deleteOldMessages now).2

def DatabaseStorage.applyOps (db : DatabaseStorage) (ops : List StorageOp) :
    DatabaseStorage :=
  ops.foldl DatabaseStorage.applyOp db

/-- The C2 invariant for `MemStorage`: every counter equals the live
cardinality of its collection. -/
def memCountsConsistent (st : MemStorage) : Prop :=
  st.botStatusRecord.servers_count = (st.discordServers.length : Int) ∧
  st.botStatusRecord.channels_count = (st.discordChannels.length : Int) ∧
  st.botStatusRecord.messages_count = (st.discordMessages.length : Int)

/-- The C2 invariant for `DatabaseStorage`: the singleton status row carries
the live cardinalities. -/
def dbCountsConsistent (db : DatabaseStorage) : Prop :=
  ∃ r, db.botStatusRows = [r] ∧ r.id = 1 ∧
    r.servers_count = (db.discordServers.length : Int) ∧
    r.channels_count = (db.discordChannels.length : Int) ∧
    r.messages_count = (db.discordMessages.length : Int)

lemma memCountsConsistent_applyOp (st : MemStorage) (op : StorageOp)
    (h : memCountsConsistent st) : memCountsConsistent (st.applyOp op) := by
  obtain ⟨h1, h2, h3⟩ := h
  cases op with
  | createServer s =>
    exact ⟨rfl, h2, h3⟩
  | createChannel c =>
    exact ⟨h1, rfl, h3⟩
  | createMessage m =>
    exact ⟨h1, h2, rfl⟩
  | deleteOldMessages now =>
    exact ⟨h1, h2, rfl⟩

lemma dbCountsConsistent_applyOp (db : DatabaseStorage) (op : StorageOp)
    (h : dbCountsConsistent db) : dbCountsConsistent (db.applyOp op) := by
  obtain ⟨r, hrows, hid, h1, h2, h3⟩ := h
  cases op with
  | createServer s =>
    cases hs : db.getServer s.id with
    | some e =>
      refine ⟨r, ?_, hid, ?_, ?_, ?_⟩ <;>
        simp [DatabaseStorage.applyOp, DatabaseStorage.createServer, hs, hrows,
          h1, h2, h3]
    | none =>
      refine ⟨{ r with servers_count := (db.discordServers.length : Int) + 1 }, ?_, hid, ?_, ?_, ?_⟩ <;>
        simp [DatabaseStorage.applyOp, DatabaseStorage.createServer, hs, hrows,
          DatabaseStorage.updateServerCount, hid, h1, h2, h3]
  | createChannel c =>
    cases hs : db.getChannel c.id with
    | some e =>
      refine ⟨r, ?_, hid, ?_, ?_, ?_⟩ <;>
        simp [DatabaseStorage.applyOp, DatabaseStorage.createChannel, hs, hrows,
          h1, h2, h3]
    | none =>
      refine ⟨{ r with channels_count := (db.discordChannels.length : Int) + 1 }, ?_, hid, ?_, ?_, ?_⟩ <;>
        simp [DatabaseStorage.applyOp, DatabaseStorage.createChannel, hs, hrows,
          DatabaseStorage.updateChannelCount, hid, h1, h2, h3]
  | createMessage m =>
    cases hs : db.getMessage m.id with
    | some e =>
      refine ⟨r, ?_, hid, ?_, ?_, ?_⟩ <;>
        simp [DatabaseStorage.applyOp, DatabaseStorage.createMessage, hs, hrows,
          h1, h2, h3]
    | none =>
      refine ⟨{ r with messages_count := (db.discordMessages.length : Int) + 1,
                       storage_usage := (db.discordMessages.length : Int) + 1 }, ?_, hid, ?_, ?_, ?_⟩ <;>
        simp [DatabaseStorage.applyOp, DatabaseStorage.createMessage, hs, hrows,
          DatabaseStorage.updateMessageCount, hid, h1, h2, h3]
  | deleteOldMessages now =>
    refine ⟨{ r with
        messages_count := (((db.discordMessages.filter
          (fun m => ! decide (m.created_at < now - twoWeeksMs))).length : Nat) : Int),
        storage_usage := (((db.discordMessages.filter
          (fun m => ! decide (m.created_at < now - twoWeeksMs))).length : Nat) : Int) }, ?_, hid, ?_, ?_, ?_⟩ <;>
      simp [DatabaseStorage.applyOp, DatabaseStorage.deleteOldMessages, hrows,
        DatabaseStorage.updateMessageCount, hid, h1, h2, h3]

lemma memCountsConsistent_applyOps (st : MemStorage) (ops : List StorageOp)
    (h : memCountsConsistent st) : memCountsConsistent (st.applyOps ops) := by
  induction ops generalizing st with
  | nil => exact h
  | cons op rest ih => exact ih _ (memCountsConsistent_applyOp st op h)

lemma dbCountsConsistent_applyOps (db : DatabaseStorage) (ops : List StorageOp)
    (h : dbCountsConsistent db) : dbCountsConsistent (db.applyOps ops) := by
  induction ops generalizing db with
  | nil => exact h
  | cons op rest ih => exact ih _ (dbCountsConsistent_applyOp db op h)

/-- C2: after any sequence of mutating repository calls (`createServer`,
`createChannel`, `createMessage`, `deleteOldMessages`) from the initial
state, the status counters equal the live cardinalities of their
collections, for both implementations; in particular `messages_count`
always equals the number of currently stored messages. -/
theorem counters_equal_live_cardinality (ops : List StorageOp) :
    memCountsConsistent (MemStorage.init.applyOps ops) ∧
    dbCountsConsistent (DatabaseStorage.init.applyOps ops) := by
  constructor
  · exact memCountsConsistent_applyOps _ ops ⟨rfl, rfl, rfl⟩
  · exact dbCountsConsistent_applyOps _ ops
      ⟨initialBotStatus, rfl, rfl, rfl, rfl, rfl⟩

/-- Pairwise-distinct keys: the JS `Map` representation invariant. -/
def keysUnique (key : α → String) (l : List α) : Prop :=
  (l.map key).Nodup

lemma mapGet_mapSet_self (key : α → String) (v : α) (l : List α) :
    mapGet key (key v) (mapSet key v l) = some v := by
  induction l with
  | nil => simp [mapSet, mapGet]
  | cons x xs ih =>
    by_cases h : key x = key v
    · simp [mapSet, mapGet, h]
    · simp [mapSet, mapGet, h] at ih ⊢
      exact ih

lemma mapGet_mapSet_ne (key : α → String) (v : α) (l : List α) (k : String)
    (hk : k ≠ key v) : mapGet key k (mapSet key v l) = mapGet key k l := by
  have hvf : (key v == k) = false := by
    simp only [beq_eq_false_iff_ne, ne_eq]
    exact fun hh => hk hh.symm
  induction l with
  | nil => simp [mapSet, mapGet, List.find?, hvf]
  | cons x xs ih =>
    simp only [mapSet]
    by_cases h : key x = key v
    · have hxf : (key x == k) = false := by rw [h]; exact hvf
      simp [mapGet, List.find?, if_pos h, hvf, hxf]
    · by_cases hx : key x = k
      · have hxt : (key x == k) = true := by simp [hx]
        simp [mapGet, List.find?, if_neg h, hxt]
      · have hxf : (key x == k) = false := by simp [hx]
        simp only [mapGet, List.find?, if_neg h, hxf] at ih ⊢
        exact ih

lemma mem_map_key_mapSet (key : α → String) (v : α) (l : List α) (k : String)
    (h : k ∈ (mapSet key v l).map key) : k = key v ∨ k ∈ l.map key := by
  induction l with
  | nil =>
    simp [mapSet] at h
    exact Or.inl h
  | cons x xs ih =>
    simp only [mapSet] at h
    by_cases hx : key x = key v
    · rw [if_pos hx] at h
      simp only [List.map_cons, List.mem_cons] at h
      rcases h with h | h
      · exact Or.inl h
      · exact Or.inr (List.mem_cons_of_mem _ h)
    · rw [if_neg hx] at h
      simp only [List.map_cons, List.mem_cons] at h
      rcases h with h | h
      · exact Or.inr (by simp [h])
      · rcases ih h with h2 | h2
        · exact Or.inl h2
        · exact Or.inr (List.mem_cons_of_mem _ h2)

lemma keysUnique_mapSet (key : α → String) (v : α) (l : List α)
    (h : keysUnique key l) : keysUnique key (mapSet key v l) := by
  induction l with
  | nil => simp [keysUnique, mapSet]
  | cons x xs ih =>
    have h2 : (key x :: xs.map key).Nodup := h
    obtain ⟨hx, hxs⟩ := List.nodup_cons.mp h2
    have hxs2 : keysUnique key xs := hxs
    show ((mapSet key v (x :: xs)).map key).Nodup
    simp only [mapSet]
    by_cases hk : key x = key v
    · rw [if_pos hk]
      simp only [List.map_cons]
      exact List.nodup_cons.mpr ⟨hk ▸ hx, hxs⟩
    · rw [if_neg hk]
      simp only [List.map_cons]
      refine List.nodup_cons.mpr ⟨?_, ih hxs2⟩
      intro hmem
      rcases mem_map_key_mapSet key v xs (key x) hmem with h3 | h3
      · exact hk h3
      · exact hx h3

lemma countP_eq_zero_of_not_mem_keys (key : α → String) (k : String) (l : List α)
    (h : k ∉ l.map key) : l.countP (fun x => key x == k) = 0 := by
  rw [List.countP_eq_zero]
  intro a ha
  simp only [beq_iff_eq]
  intro hk
  exact h (hk ▸ List.mem_map_of_mem key ha)

lemma countP_mapSet (key : α → String) (v : α) (l : List α)
    (h : keysUnique key l) :
    (mapSet key v l).countP (fun x => key x == key v) = 1 := by
  induction l with
  | nil => simp [mapSet]
  | cons x xs ih =>
    obtain ⟨hx, hxs⟩ := List.nodup_cons.mp h
    by_cases hk : key x = key v
    · have : xs.countP (fun y => key y == key v) = 0 :=
        countP_eq_zero_of_not_mem_keys key (key v) xs (hk ▸ hx)
      simp [mapSet, hk, List.countP_cons, this]
    · simp [mapSet, hk, List.countP_cons, ih hxs]

lemma head?_filter_some (p : α → Bool) (l : List α) (e : α)
    (h : (l.filter p).head? = some e) : e ∈ l ∧ p e = true := by
  have he : e ∈ l.filter p := by
    cases hl : l.filter p with
    | nil => rw [hl] at h; simp at h
    | cons a t =>
      rw [hl] at h
      simp at h
      simp [hl, h]
  exact ⟨(List.mem_filter.mp he).1, (List.mem_filter.mp he).2⟩

lemma keysUnique_countP_le_one (key : α → String) (k : String) (l : List α)
    (h : keysUnique key l) : l.countP (fun x => key x == k) ≤ 1 := by
  induction l with
  | nil => simp
  | cons x xs ih =>
    obtain ⟨hx, hxs⟩ := List.nodup_cons.mp h
    by_cases hk : key x = k
    · have : xs.countP (fun y => key y == k) = 0 :=
        countP_eq_zero_of_not_mem_keys key k xs (hk ▸ hx)
      simp [List.countP_cons, hk, this]
    · simpa [List.countP_cons, hk] using ih hxs

/-- A message with a chosen id, content and timestamp. -/
def msgC (id content : String) (t : Int) : DiscordMessage :=
  { id := id, server_id := "s", channel_id := "c", author_id := "a",
    author_username := "u", author_discriminator := none, content := content,
    created_at := t }

/-- Counterexample to C1: in the in-memory implementation a second
`createMessage` with the same id but different content returns the NEW
record and overwrites the stored content — not a no-op returning the
original record. -/
theorem createMessage_not_idempotent_mem_cx :
    (((MemStorage.init.createMessage (msgC "1" "original" 0)).2.createMessage
        (msgC "1" "mutated" 0)).1 = msgC "1" "mutated" 0) ∧
    (((MemStorage.init.createMessage (msgC "1" "original" 0)).2.createMessage
        (msgC "1" "mutated" 0)).2.discordMessages = [msgC "1" "mutated" 0]) ∧
    msgC "1" "mutated" 0 ≠ msgC "1" "original" 0 := by
  refine ⟨rfl, rfl, ?_⟩
  decide

lemma eq_of_keysUnique_mem (key : α → String) (l : List α)
    (h : keysUnique key l) (a b : α) (ha : a ∈ l) (hb : b ∈ l)
    (hk : key a = key b) : a = b :=
  List.inj_on_of_nodup_map h ha hb hk

/-- C1 (amended): the database-backed `createMessage` is an idempotent no-op
returning the stored record unchanged, and keeps exactly one record with the
id; the in-memory `createMessage` instead replaces the stored record with
the new one (content overwritten, last write wins), still keeping exactly
one record with the id and leaving every other id untouched. -/
theorem createMessage_idempotence_amended
    (st : MemStorage) (db : DatabaseStorage) (m e : DiscordMessage)
    (hmem : keysUnique (fun x => x.id) st.discordMessages)
    (hdb : keysUnique (fun x => x.id) db.discordMessages)
    (he : db.getMessage m.id = some e) :
    db.createMessage m = (some e, db) ∧
    db.discordMessages.countP (fun x => x.id == m.id) = 1 ∧
    (st.createMessage m).1 = m ∧
    (st.createMessage m).2.getMessage m.id = some m ∧
    (st.createMessage m).2.discordMessages.countP (fun x => x.id == m.id) = 1 ∧
    keysUnique (fun x => x.id) (st.createMessage m).2.discordMessages ∧
    (∀ k, k ≠ m.id → (st.createMessage m).2.getMessage k = st.getMessage k) := by
  obtain ⟨hmm, hpe⟩ := head?_filter_some _ db.discordMessages e he
  refine ⟨?_, ?_, rfl, ?_, ?_, ?_, ?_⟩
  · simp [DatabaseStorage.createMessage, he]
  · have h1 := keysUnique_countP_le_one (fun x => x.id) m.id db.discordMessages hdb
    have h2 : 0 < db.discordMessages.countP (fun x => x.id == m.id) :=
      List.countP_pos_iff.mpr ⟨e, hmm, hpe⟩
    exact le_antisymm h1 h2
  · exact mapGet_mapSet_self (fun x => x.id) m st.discordMessages
  · exact countP_mapSet (fun x => x.id) m st.discordMessages hmem
  · exact keysUnique_mapSet (fun x => x.id) m st.discordMessages hmem
  · intro k hk
    exact mapGet_mapSet_ne (fun x => x.id) m st.discordMessages k hk

/-- Store with one message of id "1" and content "original" (in-memory). -/
def memC1State : MemStorage :=
  (MemStorage.init.createMessage (msgC "1" "original" 0)).2

/-- Store with one message of id "1" and content "original" (database). -/
def dbC1State : DatabaseStorage :=
  (DatabaseStorage.init.createMessage (msgC "1" "original" 0)).2

/-- Witness for the amended C1 at concrete one-message stores. -/
theorem createMessage_idempotence_amended_witness :
    dbC1State.createMessage (msgC "1" "mutated" 0) =
      (some (msgC "1" "original" 0), dbC1State) ∧
    dbC1State.discordMessages.countP
      (fun x => x.id == (msgC "1" "mutated" 0).id) = 1 ∧
    (memC1State.createMessage (msgC "1" "mutated" 0)).1 = msgC "1" "mutated" 0 ∧
    (memC1State.createMessage (msgC "1" "mutated" 0)).2.getMessage
      (msgC "1" "mutated" 0).id = some (msgC "1" "mutated" 0) ∧
    (memC1State.createMessage (msgC "1" "mutated" 0)).2.discordMessages.countP
      (fun x => x.id == (msgC "1" "mutated" 0).id) = 1 ∧
    keysUnique (fun x => x.id)
      (memC1State.createMessage (msgC "1" "mutated" 0)).2.discordMessages ∧
    (∀ k, k ≠ (msgC "1" "mutated" 0).id →
      (memC1State.createMessage (msgC "1" "mutated" 0)).2.getMessage k =
        memC1State.getMessage k) :=
  createMessage_idempotence_amended memC1State dbC1State
    (msgC "1" "mutated" 0) (msgC "1" "original" 0)
    (show (memC1State.discordMessages.map (fun x => x.id)).Nodup by decide)
    (show (dbC1State.discordMessages.map (fun x => x.id)).Nodup by decide)
    (by decide)

lemma head_filter_map_upd (p : α → Bool) (f : α → α) (l : List α) (e : α)
    (hpf : ∀ x, p x = true → p (f x) = true)
    (he : (l.filter p).head? = some e) :
    ((l.map (fun x => if p x then f x else x)).filter p).head? = some (f e) := by
  induction l with
  | nil => simp at he
  | cons x xs ih =>
    by_cases hx : p x = true
    · rw [List.filter_cons_of_pos hx] at he
      simp only [List.head?_cons, Option.some.injEq] at he
      simp only [List.map_cons, if_pos hx]
      rw [List.filter_cons_of_pos (hpf x hx)]
      simp [he]
    · rw [List.filter_cons_of_neg hx] at he
      simp only [List.map_cons, if_neg hx]
      rw [List.filter_cons_of_neg hx]
      exact ih he

/-- A server record with a chosen id, name, icon and join time. -/
def srvC (id name : String) (icon : Option String) (j : Int) : DiscordServer :=
  { id := id, name := name, icon := icon, joined_at := j }

/-- A channel record with chosen fields. -/
def chanC (id sid name ty : String) : DiscordChannel :=
  { id := id, server_id := sid, name := name, type := ty }

/-- Counterexample to C6: in the in-memory implementation `createServer` on
an existing id replaces the whole record, so the stored `joined_at` takes
the NEW value instead of staying unchanged. -/
theorem createServer_joined_at_overwritten_cx :
    (((MemStorage.init.createServer (srvC "g" "N" none 0)).2.createServer
        (srvC "g" "N2" none 5)).2.discordServers = [srvC "g" "N2" none 5]) ∧
    (srvC "g" "N2" none 5).joined_at ≠ (srvC "g" "N" none 0).joined_at := by
  exact ⟨rfl, by decide⟩

/-- C6 (amended): the database-backed upsert updates only the mutable
fields — `name`/`icon` for servers (preserving `joined_at`), `name`/`type`
for channels (preserving `server_id`) — and inserts plus recomputes the
count when the id is absent; the in-memory upsert instead replaces the
whole stored record (so `joined_at` becomes the new record's value) while
recomputing the count and leaving other ids untouched. -/
theorem createServer_upsert_amended
    (db db2 : DatabaseStorage) (st : MemStorage)
    (s : DiscordServer) (e : DiscordServer)
    (c : DiscordChannel) (ec : DiscordChannel)
    (hdbs : keysUnique (fun x => x.id) db.discordServers)
    (hes : db.getServer s.id = some e)
    (hdbc : keysUnique (fun x => x.id) db.discordChannels)
    (hec : db.getChannel c.id = some ec)
    (hnone : db2.getServer s.id = none) :
    ((db.createServer s).1 = some { e with name := s.name, icon := s.icon } ∧
     (db.createServer s).2.botStatusRows = db.botStatusRows ∧
     (∀ x ∈ (db.createServer s).2.discordServers, x.id = s.id →
        x.joined_at = e.joined_at)) ∧
    ((db.createChannel c).1 = some { ec with name := c.name, type := c.type } ∧
     (∀ x ∈ (db.createChannel c).2.discordChannels, x.id = c.id →
        x.server_id = ec.server_id)) ∧
    ((db2.createServer s).2.discordServers = db2.discordServers ++ [s] ∧
     (∀ r ∈ (db2.createServer s).2.botStatusRows, r.id = 1 →
        r.servers_count = ((db2.discordServers.length : Int) + 1))) ∧
    ((st.createServer s).2.getServer s.id = some s ∧
     (st.createServer s).2.botStatusRecord.servers_count =
       ((st.createServer s).2.discordServers.length : Int) ∧
     (∀ k, k ≠ s.id → (st.createServer s).2.getServer k = st.getServer k)) := by
  obtain ⟨hesm, hesp⟩ := head?_filter_some _ db.discordServers e hes
  obtain ⟨hecm, hecp⟩ := head?_filter_some _ db.discordChannels ec hec
  have heid : e.id = s.id := by simpa using hesp
  have hecid : ec.id = c.id := by simpa using hecp
  refine ⟨⟨?_, ?_, ?_⟩, ⟨?_, ?_⟩, ⟨?_, ?_⟩, ⟨?_, ?_, ?_⟩⟩
  · simp only [DatabaseStorage.createServer, hes]
    have hes2 : (db.discordServers.filter (fun x => x.id == s.id)).head? =
        some e := hes
    exact head_filter_map_upd (fun x => x.id == s.id)
      (fun x => { x with name := s.name, icon := s.icon })
      db.discordServers e (fun x hx => hx) hes2
  · simp only [DatabaseStorage.createServer, hes]
  · intro x hx hxid
    simp only [DatabaseStorage.createServer, hes] at hx
    obtain ⟨y, hy, hxy⟩ := List.mem_map.mp hx
    by_cases hys : (y.id == s.id) = true
    · rw [if_pos hys] at hxy
      have hye : y = e :=
        eq_of_keysUnique_mem _ _ hdbs y e hy hesm
          (by rw [show y.id = s.id from by simpa using hys, heid])
      rw [← hxy, hye]
    · rw [if_neg hys] at hxy
      rw [← hxy] at hxid
      exact absurd (by simp [hxid] : (y.id == s.id) = true) hys
  · simp only [DatabaseStorage.createChannel, hec]
    have hec2 : (db.discordChannels.filter (fun x => x.id == c.id)).head? =
        some ec := hec
    exact head_filter_map_upd (fun x => x.id == c.id)
      (fun x => { x with name := c.name, type := c.type })
      db.discordChannels ec (fun x hx => hx) hec2
  · intro x hx hxid
    simp only [DatabaseStorage.createChannel, hec] at hx
    obtain ⟨y, hy, hxy⟩ := List.mem_map.mp hx
    by_cases hys : (y.id == c.id) = true
    · rw [if_pos hys] at hxy
      have hye : y = ec :=
        eq_of_keysUnique_mem _ _ hdbc y ec hy hecm
          (by rw [show y.id = c.id from by simpa using hys, hecid])
      rw [← hxy, hye]
    · rw [if_neg hys] at hxy
      rw [← hxy] at hxid
      exact absurd (by simp [hxid] : (y.id == c.id) = true) hys
  · simp [DatabaseStorage.createServer, hnone, DatabaseStorage.updateServerCount]
  · intro r hr hrid
    simp only [DatabaseStorage.createServer, hnone,
      DatabaseStorage.updateServerCount] at hr
    obtain ⟨y, hy, hry⟩ := List.mem_map.mp hr
    by_cases hy1 : (y.id == 1) = true
    · rw [if_pos hy1] at hry
      rw [← hry]
      simp
    · rw [if_neg hy1] at hry
      rw [← hry] at hrid
      exact absurd (by simp [hrid] : (y.id == 1) = true) hy1
  · exact mapGet_mapSet_self (fun x => x.id) s st.discordServers
  · rfl
  · intro k hk
    exact mapGet_mapSet_ne (fun x => x.id) s st.discordServers k hk

/-- Database store holding one server "g" and one channel "ch". -/
def dbC6State : DatabaseStorage :=
  ((DatabaseStorage.init.createServer (srvC "g" "N" none 0)).2.createChannel
    (chanC "ch" "g" "general" "0")).2

/-- In-memory store holding server "g". -/
def memC6State : MemStorage :=
  (MemStorage.init.createServer (srvC "g" "N" none 0)).2

/-- Witness for the amended C6 at concrete stores. -/
theorem createServer_upsert_amended_witness :
    ((dbC6State.createServer (srvC "g" "N2" (some "i") 5)).1 =
        some (srvC "g" "N2" (some "i") 0) ∧
     (dbC6State.createServer (srvC "g" "N2" (some "i") 5)).2.botStatusRows =
        dbC6State.botStatusRows ∧
     (∀ x ∈ (dbC6State.createServer
          (srvC "g" "N2" (some "i") 5)).2.discordServers,
        x.id = (srvC "g" "N2" (some "i") 5).id →
        x.joined_at = (srvC "g" "N" none 0).joined_at)) ∧
    ((dbC6State.createChannel (chanC "ch" "g" "renamed" "5")).1 =
        some (chanC "ch" "g" "renamed" "5") ∧
     (∀ x ∈ (dbC6State.createChannel
          (chanC "ch" "g" "renamed" "5")).2.discordChannels,
        x.id = (chanC "ch" "g" "renamed" "5").id →
        x.server_id = (chanC "ch" "g" "general" "0").server_id)) ∧
    ((DatabaseStorage.init.createServer
        (srvC "g" "N2" (some "i") 5)).2.discordServers =
        DatabaseStorage.init.discordServers ++ [srvC "g" "N2" (some "i") 5] ∧
     (∀ r ∈ (DatabaseStorage.init.createServer
          (srvC "g" "N2" (some "i") 5)).2.botStatusRows, r.id = 1 →
        r.servers_count =
          ((DatabaseStorage.init.discordServers.length : Int) + 1))) ∧
    ((memC6State.createServer (srvC "g" "N2" (some "i") 5)).2.getServer
        (srvC "g" "N2" (some "i") 5).id = some (srvC "g" "N2" (some "i") 5) ∧
     (memC6State.createServer
        (srvC "g" "N2" (some "i") 5)).2.botStatusRecord.servers_count =
       ((memC6State.createServer
          (srvC "g" "N2" (some "i") 5)).2.discordServers.length : Int) ∧
     (∀ k, k ≠ (srvC "g" "N2" (some "i") 5).id →
        (memC6State.createServer (srvC "g" "N2" (some "i") 5)).2.getServer k =
          memC6State.getServer k)) :=
  createServer_upsert_amended dbC6State DatabaseStorage.init memC6State
    (srvC "g" "N2" (some "i") 5) (srvC "g" "N" none 0)
    (chanC "ch" "g" "renamed" "5") (chanC "ch" "g" "general" "0")
    (show (dbC6State.discordServers.map (fun x => x.id)).Nodup by decide)
    (by decide)
    (show (dbC6State.discordChannels.map (fun x => x.id)).Nodup by decide)
    (by decide)
    (by decide)

/-- Modelled from the spec's words (C8): render "now − start" using only the
largest two non-zero units among days, hours and minutes; below one hour
only minutes. -/
def specTwoLargestUnits (ms : Int) : String :=
  let days := Int.fdiv ms msPerDay
  let hours := Int.fdiv (Int.tmod ms msPerDay) msPerHour
  let minutes := Int.fdiv (Int.tmod ms msPerHour) msPerMinute
  if 0 < days then
    if 0 < hours then toString days ++ "d " ++ toString hours ++ "h"
    else if 0 < minutes then toString days ++ "d " ++ toString minutes ++ "m"
    else toString days ++ "d"
  else if 0 < hours then toString hours ++ "h " ++ toString minutes ++ "m"
  else toString minutes ++ "m"

/-- Counterexample to C8: at an uptime of 1 day 2 hours 3 minutes the code
prints all three units ("1d 2h 3m"), not only the largest two ("1d 2h"). -/
theorem getUptime_three_units_cx :
    DiscordBot.getUptime { startTime := some 0 } 93780000 = "1d 2h 3m" ∧
    specTwoLargestUnits 93780000 = "1d 2h" ∧
    DiscordBot.getUptime { startTime := some 0 } 93780000 ≠
      specTwoLargestUnits 93780000 := by
  refine ⟨by decide, by decide, by decide⟩

lemma uptime_units (ms : Int) (h : 0 ≤ ms) :
    Int.fdiv ms msPerDay = ms / 86400000 ∧
    Int.fdiv (Int.tmod ms msPerDay) msPerHour = ms % 86400000 / 3600000 ∧
    Int.fdiv (Int.tmod ms msPerHour) msPerMinute = ms % 3600000 / 60000 := by
  have h1 : msPerDay = (86400000 : Int) := by norm_num [msPerDay]
  have h2 : msPerHour = (3600000 : Int) := by norm_num [msPerHour]
  have h3 : msPerMinute = (60000 : Int) := by norm_num [msPerMinute]
  rw [h1, h2, h3]
  refine ⟨Int.fdiv_eq_ediv _ (by norm_num), ?_, ?_⟩
  · rw [Int.tmod_eq_emod h (by norm_num), Int.fdiv_eq_ediv _ (by norm_num)]
  · rw [Int.tmod_eq_emod h (by norm_num), Int.fdiv_eq_ediv _ (by norm_num)]

lemma uptime_bounds (ms : Int) (h : 0 ≤ ms) :
    ms % 86400000 / 3600000 < 24 ∧
    ms % 3600000 / 60000 < 60 ∧
    ms / 60000 = ms / 86400000 * 1440 + ms % 86400000 / 3600000 * 60 +
      ms % 3600000 / 60000 := by
  omega

/-- C8 (amended): with a recorded start time the uptime string shows
days+hours+minutes (three units) whenever at least one full day elapsed,
hours+minutes below one day, and minutes alone below one hour; the
components are the floor-division digits of the elapsed time (hours < 24,
minutes < 60, exact reconstruction); without a start time the sentinel "0m"
is returned.  `DiscordBot.getUptime` and `formatUptime` agree. -/
theorem uptime_format_amended (t now : Int) (h : t ≤ now) :
    formatUptime (some t) now = formatUptimeMs (now - t) ∧
    DiscordBot.getUptime { startTime := some t } now = formatUptimeMs (now - t) ∧
    formatUptime none now = "0m" ∧
    DiscordBot.getUptime { startTime := none } now = "0m" ∧
    Int.fdiv (now - t) msPerDay = (now - t) / 86400000 ∧
    Int.fdiv (Int.tmod (now - t) msPerDay) msPerHour =
      (now - t) % 86400000 / 3600000 ∧
    Int.fdiv (Int.tmod (now - t) msPerHour) msPerMinute =
      (now - t) % 3600000 / 60000 ∧
    (now - t) % 86400000 / 3600000 < 24 ∧
    (now - t) % 3600000 / 60000 < 60 ∧
    (now - t) / 60000 = (now - t) / 86400000 * 1440 +
      (now - t) % 86400000 / 3600000 * 60 + (now - t) % 3600000 / 60000 ∧
    (0 < Int.fdiv (now - t) msPerDay →
      formatUptimeMs (now - t) =
        toString (Int.fdiv (now - t) msPerDay) ++ "d " ++
        toString (Int.fdiv (Int.tmod (now - t) msPerDay) msPerHour) ++ "h " ++
        toString (Int.fdiv (Int.tmod (now - t) msPerHour) msPerMinute) ++ "m") ∧
    (Int.fdiv (now - t) msPerDay ≤ 0 →
      0 < Int.fdiv (Int.tmod (now - t) msPerDay) msPerHour →
      formatUptimeMs (now - t) =
        toString (Int.fdiv (Int.tmod (now - t) msPerDay) msPerHour) ++ "h " ++
        toString (Int.fdiv (Int.tmod (now - t) msPerHour) msPerMinute) ++ "m") ∧
    (Int.fdiv (now - t) msPerDay ≤ 0 →
      Int.fdiv (Int.tmod (now - t) msPerDay) msPerHour ≤ 0 →
      formatUptimeMs (now - t) =
        toString (Int.fdiv (Int.tmod (now - t) msPerHour) msPerMinute) ++ "m") := by
  have h0 : (0 : Int) ≤ now - t := by omega
  obtain ⟨u1, u2, u3⟩ := uptime_units (now - t) h0
  obtain ⟨b1, b2, b3⟩ := uptime_bounds (now - t) h0
  refine ⟨rfl, rfl, rfl, rfl, u1, u2, u3, b1, b2, b3, ?_, ?_, ?_⟩
  · intro hd
    simp only [formatUptimeMs]
    rw [if_pos hd]
  · intro hd hh
    simp only [formatUptimeMs]
    rw [if_neg (not_lt.mpr hd), if_pos hh]
  · intro hd hh
    simp only [formatUptimeMs]
    rw [if_neg (not_lt.mpr hd), if_neg (not_lt.mpr hh)]

/-- Witness for the amended C8 at start 0, now 1 d 2 h 3 min. -/
theorem uptime_format_amended_witness :
    (0 : Int) ≤ 93780000 ∧
    formatUptime (some 0) 93780000 = formatUptimeMs (93780000 - 0) ∧
    DiscordBot.getUptime { startTime := none } 93780000 = "0m" ∧
    formatUptimeMs (93780000 - 0) = "1d 2h 3m" := by
  have h := uptime_format_amended 0 93780000 (by norm_num)
  exact ⟨by norm_num, h.1, h.2.2.2.1, by decide⟩

/-- Counterexample to C5: a command without the `!` prefix is rejected with
400 — but NO CommandLog entry is appended (the handler returns before
logging); the log stays empty. -/
theorem route_reject_does_not_log_cx :
    (executeCommandRoute (fun _ => "date") MemStorage.init
      (some { startTime := some 0 }) true 0 (some "hello")).1.status = 400 ∧
    (executeCommandRoute (fun _ => "date") MemStorage.init
      (some { startTime := some 0 }) true 0 (some "hello")).2.commandLogs = [] ∧
    MemStorage.init.commandLogs = [] := by
  refine ⟨rfl, rfl, rfl⟩

/-- C5 (amended): the three rejection paths (non-string body 400, missing
bot 503, missing `!` prefix 400) return WITHOUT appending a CommandLog
entry; an entry recording the command and the response is appended only
when the command is dispatched — on success (200), on a thrown error (500,
response `Error: ...`) and on the not-ready 200 fallback. -/
theorem execute_command_route_amended
    (fmtDate : Int → String) (st : MemStorage) (b : DiscordBot)
    (ready : Bool) (now : Int) (command : String) :
    (∀ bot, (executeCommandRoute fmtDate st bot ready now none).1.status = 400 ∧
        (executeCommandRoute fmtDate st bot ready now none).2 = st) ∧
    ((executeCommandRoute fmtDate st none ready now (some command)).1.status = 503 ∧
      (executeCommandRoute fmtDate st none ready now (some command)).2 = st) ∧
    (strStartsWith ((jsSplitSpace command).headD "") "!" = false →
      (executeCommandRoute fmtDate st (some b) ready now (some command)).1.status = 400 ∧
      (executeCommandRoute fmtDate st (some b) ready now (some command)).2 = st) ∧
    (∀ resp st1, strStartsWith ((jsSplitSpace command).headD "") "!" = true →
      executeCommand fmtDate ((jsSplitSpace command).headD "")
        (jsSplitSpace command).tail st b now = (Except.ok resp, st1) →
      executeCommandRoute fmtDate st (some b) true now (some command) =
        ({ status := 200, body := resp },
          (st1.createCommandLog
            { command := command, response := resp, executed_at := now }).2)) ∧
    (∀ e st1, strStartsWith ((jsSplitSpace command).headD "") "!" = true →
      executeCommand fmtDate ((jsSplitSpace command).headD "")
        (jsSplitSpace command).tail st b now = (Except.error e, st1) →
      executeCommandRoute fmtDate st (some b) true now (some command) =
        ({ status := 500, body := "Error executing command: " ++ e },
          (st1.createCommandLog
            { command := command, response := "Error: " ++ e,
              executed_at := now }).2)) ∧
    (strStartsWith ((jsSplitSpace command).headD "") "!" = true →
      executeCommandRoute fmtDate st (some b) false now (some command) =
        ({ status := 200, body := "Bot is not connected to Discord" },
          (st.createCommandLog
            { command := command,
              response := "Bot is not connected to Discord",
              executed_at := now }).2)) := by
  refine ⟨fun bot => ⟨rfl, rfl⟩, ⟨rfl, rfl⟩, ?_, ?_, ?_, ?_⟩
  · intro hp
    simp only [List.headD_eq_head?_getD] at hp
    constructor <;> simp [executeCommandRoute, hp]
  · intro resp st1 hp hexec
    simp only [List.headD_eq_head?_getD] at hp hexec
    simp [executeCommandRoute, hp, hexec]
  · intro e st1 hp hexec
    simp only [List.headD_eq_head?_getD] at hp hexec
    simp [executeCommandRoute, hp, hexec]
  · intro hp
    simp only [List.headD_eq_head?_getD] at hp
    simp [executeCommandRoute, hp]

/-- Witness for the amended C5: `!help` with a ready bot responds 200 and
appends the command log entry through `createCommandLog`. -/
theorem execute_command_route_amended_witness :
    strStartsWith ((jsSplitSpace "!help").headD "") "!" = true ∧
    executeCommandRoute (fun _ => "d") MemStorage.init
        (some { startTime := some 0 }) true 0 (some "!help") =
      ({ status := 200, body := formatHelpCommand },
        (MemStorage.init.createCommandLog
          { command := "!help", response := formatHelpCommand,
            executed_at := 0 }).2) := by
  have h := execute_command_route_amended (fun _ => "d") MemStorage.init
    { startTime := some 0 } true 0 "!help"
  exact ⟨by decide, h.2.2.2.1 formatHelpCommand MemStorage.init (by decide) rfl⟩

lemma sortDescBy_perm (key : α → Int) (l : List α) :
    List.Perm (sortDescBy key l) l :=
  List.perm_insertionSort _ l

lemma mem_sortDescBy (key : α → Int) (l : List α) (a : α) :
    a ∈ sortDescBy key l ↔ a ∈ l :=
  (sortDescBy_perm key l).mem_iff

lemma sortDescBy_sorted (key : α → Int) (l : List α) :
    (sortDescBy key l).Pairwise (fun a b => key b ≤ key a) := by
  haveI : IsTotal α (fun a b => key b ≤ key a) :=
    ⟨fun a b => le_total (key b) (key a)⟩
  haveI : IsTrans α (fun a b => key b ≤ key a) :=
    ⟨fun a b c h1 h2 => le_trans h2 h1⟩
  exact List.sorted_insertionSort _ l

lemma pairwise_orderedInsert (key : α → Int) (Q : α → α → Prop)
    (hvac : ∀ a b, key b < key a → Q a b) (m : α) :
    ∀ l : List α, (∀ x ∈ l, Q m x) → l.Pairwise Q →
      (List.orderedInsert (fun a b => key b ≤ key a) m l).Pairwise Q
  | [], _, _ => by simp
  | x :: xs, hm, hl => by
    simp only [List.orderedInsert]
    obtain ⟨hx, hxs⟩ := List.pairwise_cons.mp hl
    by_cases h : key x ≤ key m
    · rw [if_pos h]
      exact List.pairwise_cons.mpr ⟨hm, hl⟩
    · rw [if_neg h]
      refine List.pairwise_cons.mpr ⟨?_,
        pairwise_orderedInsert key Q hvac m xs
          (fun y hy => hm y (List.mem_cons_of_mem _ hy)) hxs⟩
      intro y hy
      rcases List.mem_cons.mp
          ((List.perm_orderedInsert _ m xs).mem_iff.mp hy) with h2 | h2
      · rw [h2]
        exact hvac x m (lt_of_not_ge h)
      · exact hx y h2

lemma pairwise_sortDescBy (key : α → Int) (Q : α → α → Prop)
    (hvac : ∀ a b, key b < key a → Q a b) :
    ∀ l : List α, l.Pairwise Q → (sortDescBy key l).Pairwise Q
  | [], _ => by simp [sortDescBy, List.insertionSort]
  | a :: l, hl => by
    obtain ⟨ha, hl2⟩ := List.pairwise_cons.mp hl
    simp only [sortDescBy, List.insertionSort]
    exact pairwise_orderedInsert key Q hvac a _
      (fun x hx => ha x ((List.perm_insertionSort _ l).mem_iff.mp hx))
      (pairwise_sortDescBy key Q hvac l hl2)

lemma sorted_take_drop (key : α → Int) (s : List α)
    (hs : s.Pairwise (fun a b => key b ≤ key a)) (n : Nat) (a b : α)
    (ha : a ∈ s.take n) (hb : b ∈ s.drop n) : key b ≤ key a := by
  have hs2 : (s.take n ++ s.drop n).Pairwise (fun a b => key b ≤ key a) := by
    rw [List.take_append_drop]
    exact hs
  exact (List.pairwise_append.mp hs2).2.2 a ha b hb

lemma jsSlice_zero_nonneg (l : List α) (e : Int) (he : 0 ≤ e) :
    jsSlice l 0 e = l.take (min e.toNat l.length) := by
  simp [jsSlice, jsSliceIndex, not_lt.mpr he]

/-- C7's tie-break order: equal `executed_at` resolved by insertion order,
i.e. by ascending id. -/
def logTieOrder (a b : CommandLog) : Prop :=
  a.executed_at = b.executed_at → a.id < b.id

lemma logTieOrder_vac (a b : CommandLog)
    (h : b.executed_at < a.executed_at) : logTieOrder a b :=
  fun he => absurd he (by omega)

lemma createCommandLog_spec (st : MemStorage) (log : InsertCommandLog)
    (hid : ∀ l ∈ st.commandLogs, l.id < st.commandLogCurrentId)
    (htie : st.commandLogs.Pairwise logTieOrder) :
    (st.createCommandLog log).1.id = st.commandLogCurrentId ∧
    (∀ l ∈ st.commandLogs, l.id < (st.createCommandLog log).1.id) ∧
    (st.createCommandLog log).2.commandLogCurrentId = st.commandLogCurrentId + 1 ∧
    (∀ l ∈ (st.createCommandLog log).2.commandLogs,
      l.id < (st.createCommandLog log).2.commandLogCurrentId) ∧
    (st.createCommandLog log).2.commandLogs.length ≤ 1000 ∧
    (∀ l ∈ (st.createCommandLog log).2.commandLogs,
      l ∈ st.commandLogs ++ [(st.createCommandLog log).1]) ∧
    (∀ d ∈ st.commandLogs ++ [(st.createCommandLog log).1],
      d ∉ (st.createCommandLog log).2.commandLogs →
      ∀ k ∈ (st.createCommandLog log).2.commandLogs,
        d.executed_at ≤ k.executed_at) ∧
    (st.createCommandLog log).2.commandLogs.Pairwise logTieOrder := by
  have hnew : (st.createCommandLog log).1 =
      { id := st.commandLogCurrentId, command := log.command,
        response := log.response, executed_at := log.executed_at } := rfl
  have hQL : (st.commandLogs ++ [(st.createCommandLog log).1]).Pairwise
      logTieOrder := by
    rw [List.pairwise_append]
    refine ⟨htie, List.pairwise_singleton _ _, ?_⟩
    intro a ha b hb
    simp only [List.mem_singleton] at hb
    intro _
    rw [hb, hnew]
    exact hid a ha
  by_cases hc : 1000 <
      (st.commandLogs ++ [(st.createCommandLog log).1]).length
  · have hlogs : (st.createCommandLog log).2.commandLogs =
        (sortDescBy (fun l => l.executed_at)
          (st.commandLogs ++ [(st.createCommandLog log).1])).take
          (min (1000 : Int).toNat
            (sortDescBy (fun l => l.executed_at)
              (st.commandLogs ++ [(st.createCommandLog log).1])).length) := by
      show (if 1000 < (st.commandLogs ++ [(st.createCommandLog log).1]).length
          then jsSlice (sortDescBy (fun l => l.executed_at)
            (st.commandLogs ++ [(st.createCommandLog log).1])) 0 1000
          else st.commandLogs ++ [(st.createCommandLog log).1]) = _
      rw [if_pos hc, jsSlice_zero_nonneg _ _ (by norm_num)]
    refine ⟨rfl, fun l hl => hid l hl, rfl, ?_, ?_, ?_, ?_, ?_⟩
    · intro l hl
      rw [hlogs] at hl
      have hl2 : l ∈ st.commandLogs ++ [(st.createCommandLog log).1] :=
        (mem_sortDescBy _ _ l).mp (List.mem_of_mem_take hl)
      rcases List.mem_append.mp hl2 with h2 | h2
      · have := hid l h2
        show l.id < st.commandLogCurrentId + 1
        omega
      · simp only [List.mem_singleton] at h2
        rw [h2, hnew]
        show st.commandLogCurrentId < st.commandLogCurrentId + 1
        omega
    · rw [hlogs]
      have := List.length_take_le
        (min (1000 : Int).toNat
          (sortDescBy (fun l => l.executed_at)
            (st.commandLogs ++ [(st.createCommandLog log).1])).length)
        (sortDescBy (fun l => l.executed_at)
          (st.commandLogs ++ [(st.createCommandLog log).1]))
      omega
    · intro l hl
      rw [hlogs] at hl
      exact (mem_sortDescBy _ _ l).mp (List.mem_of_mem_take hl)
    · intro d hd hnd k hk
      rw [hlogs] at hnd hk
      have hds : d ∈ sortDescBy (fun l => l.executed_at)
          (st.commandLogs ++ [(st.createCommandLog log).1]) :=
        (mem_sortDescBy _ _ d).mpr hd
      rw [← List.take_append_drop
        (min (1000 : Int).toNat
          (sortDescBy (fun l => l.executed_at)
            (st.commandLogs ++ [(st.createCommandLog log).1])).length)
        (sortDescBy (fun l => l.executed_at)
          (st.commandLogs ++ [(st.createCommandLog log).1]))] at hds
      rcases List.mem_append.mp hds with h2 | h2
      · exact absurd h2 hnd
      · exact sorted_take_drop (fun l => l.executed_at) _
          (sortDescBy_sorted _ _) _ k d hk h2
    · rw [hlogs]
      exact List.Pairwise.sublist (List.take_sublist _ _)
        (pairwise_sortDescBy _ _ logTieOrder_vac _ hQL)
  · have hlogs : (st.createCommandLog log).2.commandLogs =
        st.commandLogs ++ [(st.createCommandLog log).1] := by
      show (if 1000 < (st.commandLogs ++ [(st.createCommandLog log).1]).length
          then jsSlice (sortDescBy (fun l => l.executed_at)
            (st.commandLogs ++ [(st.createCommandLog log).1])) 0 1000
          else st.commandLogs ++ [(st.createCommandLog log).1]) = _
      rw [if_neg hc]
    refine ⟨rfl, fun l hl => hid l hl, rfl, ?_, ?_, ?_, ?_, ?_⟩
    · intro l hl
      rw [hlogs] at hl
      rcases List.mem_append.mp hl with h2 | h2
      · have := hid l h2
        show l.id < st.commandLogCurrentId + 1
        omega
      · simp only [List.mem_singleton] at h2
        rw [h2, hnew]
        show st.commandLogCurrentId < st.commandLogCurrentId + 1
        omega
    · rw [hlogs]
      omega
    · intro l hl
      rw [hlogs] at hl
      exact hl
    · intro d hd hnd k hk
      rw [hlogs] at hnd
      exact absurd hd hnd
    · rw [hlogs]
      exact hQL

lemma getCommandLogs_spec (st : MemStorage) (limit : Int) (h0 : 0 ≤ limit)
    (htie : st.commandLogs.Pairwise logTieOrder) :
    (st.getCommandLogs limit).length ≤ limit.toNat ∧
    (st.getCommandLogs limit).Pairwise
      (fun a b => b.executed_at ≤ a.executed_at) ∧
    (st.getCommandLogs limit).Pairwise logTieOrder ∧
    ∀ l ∈ st.getCommandLogs limit, l ∈ st.commandLogs := by
  have hlogs : st.getCommandLogs limit =
      (sortDescBy (fun l => l.executed_at) st.commandLogs).take
        (min limit.toNat
          (sortDescBy (fun l => l.executed_at) st.commandLogs).length) := by
    show jsSlice (sortDescBy (fun l => l.executed_at) st.commandLogs) 0 limit = _
    rw [jsSlice_zero_nonneg _ _ h0]
  refine ⟨?_, ?_, ?_, ?_⟩
  · rw [hlogs]
    have := List.length_take_le
      (min limit.toNat
        (sortDescBy (fun l => l.executed_at) st.commandLogs).length)
      (sortDescBy (fun l => l.executed_at) st.commandLogs)
    omega
  · rw [hlogs]
    exact List.Pairwise.sublist (List.take_sublist _ _) (sortDescBy_sorted _ _)
  · rw [hlogs]
    exact List.Pairwise.sublist (List.take_sublist _ _)
      (pairwise_sortDescBy _ _ logTieOrder_vac _ htie)
  · intro l hl
    rw [hlogs] at hl
    exact (mem_sortDescBy _ _ l).mp (List.mem_of_mem_take hl)

/-- A sample command-log row with a given id. -/
def logRow (i : Nat) : CommandLog :=
  { id := (i : Int), command := "c", response := "r", executed_at := 0 }

/-- A database whose command-log table already holds 1000 rows. -/
def dbWith1000Logs : DatabaseStorage :=
  { DatabaseStorage.init with
      commandLogs := (List.range 1000).map logRow,
      nextCommandLogId := 1001 }

set_option maxRecDepth 4000 in
/-- Counterexample to C7: the database-backed `createCommandLog` never
trims — inserting into a table that already holds 1000 entries leaves 1001
entries stored. -/
theorem db_createCommandLog_no_trim_cx :
    dbWith1000Logs.commandLogs.length = 1000 ∧
    (dbWith1000Logs.createCommandLog
      { command := "c", response := "r",
        executed_at := 1 }).2.commandLogs.length = 1001 := by
  have h : dbWith1000Logs.commandLogs.length = 1000 := by
    show ((List.range 1000).map logRow).length = 1000
    rw [List.length_map, List.length_range]
  refine ⟨h, ?_⟩
  show (dbWith1000Logs.commandLogs ++
    [({ id := dbWith1000Logs.nextCommandLogId, command := "c",
        response := "r", executed_at := 1 } : CommandLog)]).length = 1001
  rw [List.length_append, h]
  rfl

/-- C7 (amended): `createCommandLog` assigns strictly increasing ids in both
implementations; the IN-MEMORY implementation keeps at most the newest 1000
entries after each insert, dropping only entries whose `executed_at` is no
newer than everything retained, and its retrieval returns at most `limit`
entries ordered by `executed_at` descending with ties in insertion (id)
order; the DATABASE implementation appends without any trimming, and its
retrieval returns at most `limit` rows ordered by `executed_at` descending. -/
theorem command_logs_amended
    (st : MemStorage) (db : DatabaseStorage) (log : InsertCommandLog)
    (limit : Int)
    (hid : ∀ l ∈ st.commandLogs, l.id < st.commandLogCurrentId)
    (htie : st.commandLogs.Pairwise logTieOrder)
    (h0 : 0 ≤ limit)
    (hdbid : ∀ l ∈ db.commandLogs, l.id < db.nextCommandLogId) :
    ((st.createCommandLog log).1.id = st.commandLogCurrentId ∧
     (∀ l ∈ st.commandLogs, l.id < (st.createCommandLog log).1.id) ∧
     (st.createCommandLog log).2.commandLogCurrentId =
       st.commandLogCurrentId + 1 ∧
     (∀ l ∈ (st.createCommandLog log).2.commandLogs,
       l.id < (st.createCommandLog log).2.commandLogCurrentId) ∧
     (st.createCommandLog log).2.commandLogs.length ≤ 1000 ∧
     (∀ l ∈ (st.createCommandLog log).2.commandLogs,
       l ∈ st.commandLogs ++ [(st.createCommandLog log).1]) ∧
     (∀ d ∈ st.commandLogs ++ [(st.createCommandLog log).1],
       d ∉ (st.createCommandLog log).2.commandLogs →
       ∀ k ∈ (st.createCommandLog log).2.commandLogs,
         d.executed_at ≤ k.executed_at) ∧
     (st.createCommandLog log).2.commandLogs.Pairwise logTieOrder) ∧
    ((st.getCommandLogs limit).length ≤ limit.toNat ∧
     (st.getCommandLogs limit).Pairwise
       (fun a b => b.executed_at ≤ a.executed_at) ∧
     (st.getCommandLogs limit).Pairwise logTieOrder ∧
     (∀ l ∈ st.getCommandLogs limit, l ∈ st.commandLogs)) ∧
    ((db.createCommandLog log).2.commandLogs =
       db.commandLogs ++ [(db.createCommandLog log).1] ∧
     (db.createCommandLog log).1.id = db.nextCommandLogId ∧
     (∀ l ∈ db.commandLogs, l.id < (db.createCommandLog log).1.id) ∧
     (∀ l ∈ (db.createCommandLog log).2.commandLogs,
       l.id < (db.createCommandLog log).2.nextCommandLogId) ∧
     (db.getCommandLogs limit).length ≤ limit.toNat ∧
     (db.getCommandLogs limit).Pairwise
       (fun a b => b.executed_at ≤ a.executed_at) ∧
     (∀ l ∈ db.getCommandLogs limit, l ∈ db.commandLogs)) := by
  refine ⟨createCommandLog_spec st log hid htie,
    getCommandLogs_spec st limit h0 htie, rfl, rfl,
    fun l hl => hdbid l hl, ?_, ?_, ?_, ?_⟩
  · intro l hl
    show l.id < db.nextCommandLogId + 1
    rcases List.mem_append.mp hl with h2 | h2
    · have := hdbid l h2
      omega
    · simp only [List.mem_singleton] at h2
      rw [h2]
      show db.nextCommandLogId < db.nextCommandLogId + 1
      omega
  · show ((sortDescBy (fun l => l.executed_at) db.commandLogs).take
      limit.toNat).length ≤ limit.toNat
    have := List.length_take_le limit.toNat
      (sortDescBy (fun l => l.executed_at) db.commandLogs)
    omega
  · exact List.Pairwise.sublist (List.take_sublist _ _) (sortDescBy_sorted _ _)
  · intro l hl
    exact (mem_sortDescBy _ _ l).mp
      (List.mem_of_mem_take (by exact hl))

/-- In-memory store holding one command log. -/
def memLogState : MemStorage :=
  (MemStorage.init.createCommandLog
    { command := "a", response := "b", executed_at := 5 }).2

/-- Database holding one command log. -/
def dbLogState : DatabaseStorage :=
  (DatabaseStorage.init.createCommandLog
    { command := "a", response := "b", executed_at := 5 }).2

/-- Witness for the amended C7 at concrete one-log stores. -/
theorem command_logs_amended_witness :
    (memLogState.createCommandLog
      { command := "x", response := "y", executed_at := 9 }).1.id =
      memLogState.commandLogCurrentId ∧
    (memLogState.createCommandLog
      { command := "x", response := "y", executed_at := 9 }).2.commandLogs.length
      ≤ 1000 ∧
    (memLogState.getCommandLogs 10).Pairwise
      (fun a b => b.executed_at ≤ a.executed_at) ∧
    (memLogState.getCommandLogs 10).Pairwise logTieOrder ∧
    (dbLogState.createCommandLog
      { command := "x", response := "y", executed_at := 9 }).2.commandLogs =
      dbLogState.commandLogs ++
        [(dbLogState.createCommandLog
          { command := "x", response := "y", executed_at := 9 }).1] := by
  have htie : memLogState.commandLogs.Pairwise logTieOrder := by
    show List.Pairwise logTieOrder
      [{ id := 1, command := "a", response := "b", executed_at := 5 }]
    exact List.pairwise_singleton _ _
  have h := command_logs_amended memLogState dbLogState
    { command := "x", response := "y", executed_at := 9 } 10
    (by decide) htie (by norm_num) (by decide)
  exact ⟨h.1.1, h.1.2.2.2.2.1, h.2.1.2.1, h.2.1.2.2.1, h.2.2.1⟩

/-- A message in channel "1" at time `t`. -/
def msgInChan (t : Int) : DiscordMessage :=
  { id := "m", server_id := "s", channel_id := "1", author_id := "a",
    author_username := "u", author_discriminator := none, content := "x",
    created_at := t }

/-- In-memory store with 26 messages in channel "1". -/
def memC10State : MemStorage :=
  { MemStorage.init with
      discordMessages := (List.range 26).map (fun i => msgInChan (i : Int)) }

set_option maxRecDepth 8000 in
/-- Counterexample to C10: the count argument "-5" passes the numeric test
(`parseInt` gives -5, `Math.min(20, -5) = -5`) and a negative limit makes
`slice(0, limit)` count from the END of the 26-message result, returning 21
messages — more than the claimed 20-message cap. -/
theorem messages_count_not_clamped_cx :
    messagesCommandLimit ["<#1>", "-5"] = -5 ∧
    (messagesCommandPage ["<#1>", "-5"] memC10State).1.length = 21 := by
  constructor
  · decide
  · decide

lemma length_jsSlice_zero (l : List α) (e : Int) (he : 0 ≤ e) :
    (jsSlice l 0 e).length ≤ e.toNat := by
  rw [jsSlice_zero_nonneg l e he, List.length_take]
  omega

lemma messagesCommandLimit_le (args : List String) :
    messagesCommandLimit args ≤ 20 := by
  by_cases h : 1 < args.length
  · simp only [messagesCommandLimit, if_pos h]
    cases hp : parseIntJS (args.getD 1 "") with
    | some n => exact min_le_left _ _
    | none => norm_num
  · simp only [messagesCommandLimit, if_neg h]
    norm_num

/-- C10 (amended): `!messages` requests 5 messages when no (or a
non-numeric) count argument is given and `min(20, n)` when the second
argument parses as the number `n`; whenever the requested limit is
non-negative — in particular for every non-negative numeric count such as
"50" — at most 20 messages are returned, but a negative numeric count
escapes the cap through JS `slice`'s end-relative indexing.  Each formatted
line shows author and date, with content cut to its first 100 characters
and "..." appended exactly when the content is longer than 100. -/
theorem messages_command_amended
    (st : MemStorage) (fmtDate : Int → String) (a b : String)
    (rest : List String) (n : Int) (args : List String) :
    messagesCommandLimit [] = 5 ∧
    messagesCommandLimit [a] = 5 ∧
    (parseIntJS b = none → messagesCommandLimit (a :: b :: rest) = 5) ∧
    (parseIntJS b = some n → messagesCommandLimit (a :: b :: rest) = min 20 n) ∧
    (0 ≤ messagesCommandLimit args →
      (messagesCommandPage args st).1.length ≤ 20) ∧
    (∀ m : DiscordMessage,
      (String.mk (m.content.toList.take 100)).length ≤ 100) ∧
    (∀ m : DiscordMessage, m.content.length ≤ 100 →
      messageLine fmtDate m =
        "**" ++ m.author_username ++ "** (" ++ fmtDate m.created_at ++ "): " ++
          m.content) ∧
    (∀ m : DiscordMessage, 100 < m.content.length →
      messageLine fmtDate m =
        "**" ++ m.author_username ++ "** (" ++ fmtDate m.created_at ++ "): " ++
          String.mk (m.content.toList.take 100) ++ "...") := by
  refine ⟨rfl, rfl, ?_, ?_, ?_, ?_, ?_, ?_⟩
  · intro h
    simp [messagesCommandLimit, h]
  · intro h
    simp [messagesCommandLimit, h]
  · intro h
    have hle : messagesCommandLimit args ≤ 20 := messagesCommandLimit_le args
    have hlen := length_jsSlice_zero
      (sortDescBy (fun m => m.created_at)
        (memFilterMessages
          { channelId := messagesCommandChannelId args,
            limit := some (messagesCommandLimit args) } st.discordMessages))
      (0 + messagesCommandLimit args) (by omega)
    have h20 : (0 + messagesCommandLimit args).toNat ≤ 20 := by omega
    exact le_trans hlen h20
  · intro m
    show (m.content.toList.take 100).length ≤ 100
    rw [List.length_take]
    omega
  · intro m h
    have h2 : m.content.toList.length ≤ 100 := h
    simp only [messageLine, if_neg (not_lt.mpr h), List.take_of_length_le h2]
    show _ ++ (String.mk m.content.data) ++ "" = _
    rw [String.append_empty]
  · intro m h
    simp only [messageLine, if_pos h]

set_option maxRecDepth 8000 in
/-- Witness for the amended C10: count argument "50" requests min(20, 50)
and at most 20 of the 26 stored messages are returned. -/
theorem messages_command_amended_witness :
    messagesCommandLimit ("<#1>" :: "50" :: []) = min 20 50 ∧
    (messagesCommandPage ["<#1>", "50"] memC10State).1.length ≤ 20 := by
  have h := messages_command_amended memC10State (fun _ => "d") "<#1>" "50"
    [] 50 ["<#1>", "50"]
  exact ⟨h.2.2.2.1 (by decide), h.2.2.2.2.1 (by decide)⟩

lemma listIncludes_iff (needle : List Char) :
    ∀ hay : List Char, listIncludes needle hay = true ↔ needle <:+: hay
  | [] => by
    simp [listIncludes, List.isEmpty_iff]
  | c :: rest => by
    simp only [listIncludes, Bool.or_eq_true, listIncludes_iff needle rest,
      List.isPrefixOf_iff_prefix, List.infix_cons_iff]

lemma strIncludes_iff (hay needle : String) :
    strIncludes hay needle = true ↔ needle.toList <:+: hay.toList :=
  listIncludes_iff needle.toList hay.toList

lemma take_min_self (l : List α) (n : Nat) :
    l.take (min n l.length) = l.take n := by
  rcases le_total n l.length with h | h
  · rw [min_eq_left h]
  · rw [min_eq_right h, List.take_length, List.take_of_length_le h]

lemma take_add_split (l : List α) (m n : Nat) :
    l.take (m + n) = l.take m ++ (l.drop m).take n := by
  induction l generalizing m with
  | nil => simp
  | cons x xs ih =>
    cases m with
    | zero => simp
    | succ k =>
      simp only [Nat.succ_add, List.take_succ_cons, List.drop_succ_cons,
        List.cons_append, ih k]

lemma jsSlice_nonneg (lst : List α) (s l : Int) (hs : 0 ≤ s) (hl : 0 ≤ l) :
    jsSlice lst s (s + l) = (lst.drop s.toNat).take l.toNat := by
  have hsl : (s + l).toNat = s.toNat + l.toNat := by omega
  have h1 : jsSliceIndex lst.length s = min s.toNat lst.length := by
    simp [jsSliceIndex, not_lt.mpr hs]
  have h2 : jsSliceIndex lst.length (s + l) =
      min (s.toNat + l.toNat) lst.length := by
    simp [jsSliceIndex, not_lt.mpr (show (0 : Int) ≤ s + l by omega), hsl]
  rw [jsSlice, h1, h2, take_min_self, List.take_drop]
  rcases le_total s.toNat lst.length with h | h
  · rw [min_eq_left h]
  · rw [min_eq_right h]
    have hmin := List.length_take (s.toNat + l.toNat) lst
    have hlen1 : ((lst.take (s.toNat + l.toNat)).drop lst.length) = [] := by
      apply List.drop_eq_nil_of_le
      omega
    have hlen2 : ((lst.take (s.toNat + l.toNat)).drop s.toNat) = [] := by
      apply List.drop_eq_nil_of_le
      omega
    rw [hlen1, hlen2]

lemma serverFilter_mem (sid : Option String) (l : List DiscordMessage)
    (m : DiscordMessage) :
    m ∈ serverFilter sid l ↔
      m ∈ l ∧ (∀ s, sid = some s → s ≠ "" → m.server_id = s) := by
  cases sid with
  | none => simp [serverFilter]
  | some s =>
    by_cases hs : s = ""
    · subst hs
      simp [serverFilter]
    · have hb : (s != "") = true := by simp [hs]
      simp only [serverFilter, hb, if_true, List.mem_filter, beq_iff_eq]
      constructor
      · rintro ⟨hm, he⟩
        refine ⟨hm, ?_⟩
        rintro s2 h2 _
        cases h2
        exact he
      · rintro ⟨hm, hall⟩
        exact ⟨hm, hall s rfl hs⟩

lemma channelFilter_mem (cid : Option String) (l : List DiscordMessage)
    (m : DiscordMessage) :
    m ∈ channelFilter cid l ↔
      m ∈ l ∧ (∀ c, cid = some c → c ≠ "" → m.channel_id = c) := by
  cases cid with
  | none => simp [channelFilter]
  | some c =>
    by_cases hc : c = ""
    · subst hc
      simp [channelFilter]
    · have hb : (c != "") = true := by simp [hc]
      simp only [channelFilter, hb, if_true, List.mem_filter, beq_iff_eq]
      constructor
      · rintro ⟨hm, he⟩
        refine ⟨hm, ?_⟩
        rintro c2 h2 _
        cases h2
        exact he
      · rintro ⟨hm, hall⟩
        exact ⟨hm, hall c rfl hc⟩

lemma searchFilter_mem (srch : Option String) (l : List DiscordMessage)
    (m : DiscordMessage) :
    m ∈ searchFilter srch l ↔
      m ∈ l ∧ (∀ s, srch = some s → s ≠ "" →
        ((strToLower s).toList <:+: (strToLower m.content).toList ∨
         (strToLower s).toList <:+: (strToLower m.author_username).toList)) := by
  cases srch with
  | none => simp [searchFilter]
  | some s =>
    by_cases hs : s = ""
    · subst hs
      simp [searchFilter]
    · have hb : (s != "") = true := by simp [hs]
      simp only [searchFilter, hb, if_true, List.mem_filter,
        Bool.or_eq_true, strIncludes_iff]
      constructor
      · rintro ⟨hm, he⟩
        refine ⟨hm, ?_⟩
        rintro s2 h2 _
        cases h2
        exact he
      · rintro ⟨hm, hall⟩
        exact ⟨hm, hall s rfl hs⟩

/-- The spec-side selection predicate of C4: all supplied (truthy) filters
hold conjunctively, with `search` a case-insensitive substring of the
content or of the author username. -/
def specMatch (o : GetMessagesOptions) (m : DiscordMessage) : Prop :=
  (∀ s, o.serverId = some s → s ≠ "" → m.server_id = s) ∧
  (∀ c, o.channelId = some c → c ≠ "" → m.channel_id = c) ∧
  (∀ s, o.search = some s → s ≠ "" →
    ((strToLower s).toList <:+: (strToLower m.content).toList ∨
     (strToLower s).toList <:+: (strToLower m.author_username).toList))

lemma memFilterMessages_mem (o : GetMessagesOptions) (l : List DiscordMessage)
    (m : DiscordMessage) :
    m ∈ memFilterMessages o l ↔ m ∈ l ∧ specMatch o m := by
  rw [memFilterMessages, searchFilter_mem, channelFilter_mem, serverFilter_mem,
    specMatch]
  tauto

lemma page_glue (X : List α) (l o : Int) (hl : 0 ≤ l) (ho : 0 ≤ o) :
    (X.drop o.toNat).take l.toNat ++ (X.drop ((o + l)).toNat).take l.toNat =
      (X.drop o.toNat).take ((2 * l).toNat) := by
  have h2l : (2 * l).toNat = l.toNat + l.toNat := by omega
  have hol : (o + l).toNat = o.toNat + l.toNat := by omega
  rw [h2l, take_add_split, hol, List.drop_drop]

/-- Database store holding only the message `msgAt "m" 0` (content "x",
author username "u"). -/
def dbOneMsg : DatabaseStorage :=
  (DatabaseStorage.init.createMessage (msgAt "m" 0)).2

/-- Counterexample to C4: in the database-backed `getMessages` the search
string is spliced into an `ILIKE '%...%'` pattern, so SQL wildcards stay
active: searching "_" returns the stored message although "_" is not a
substring of its content or author username (the in-memory implementation
correctly returns nothing). -/
theorem db_search_wildcard_cx :
    (dbOneMsg.getMessages { search := some "_" }).1 = [msgAt "m" 0] ∧
    strIncludes (strToLower (msgAt "m" 0).content) (strToLower "_") = false ∧
    strIncludes (strToLower (msgAt "m" 0).author_username)
      (strToLower "_") = false ∧
    (MemStorage.init.createMessage (msgAt "m" 0)).2.getMessages
      { search := some "_" } = ([], 0) := by
  refine ⟨by decide, by decide, by decide, by decide⟩

/-- Options record builder (positional). -/
def mkOpts (sid cid srch : Option String) (lim off : Option Int) :
    GetMessagesOptions :=
  { serverId := sid, channelId := cid, search := srch, limit := lim,
    offset := off }

/-- C4 (amended): in both implementations `getMessages` filters
conjunctively, orders by `created_at` descending, returns the page
`drop offset / take limit` of the sorted selection together with the
pre-pagination match count, defaults limit to 10 and offset to 0, and
consecutive pages concatenate exactly (no overlap, no gap) with equal
totals.  The in-memory implementation matches `search` case-insensitively
as a SUBSTRING of content or author username; the database implementation
instead evaluates `content/username ILIKE '%search%'`, in which `%`/`_` act
as wildcards (see the counterexample), so its selection predicate is the
LIKE-pattern condition `dbMessageCond`. -/
theorem getMessages_amended (st : MemStorage) (db : DatabaseStorage)
    (sid cid srch : Option String) (l o : Int) (hl : 0 ≤ l) (ho : 0 ≤ o) :
    (st.getMessages (mkOpts sid cid srch none none) =
      st.getMessages (mkOpts sid cid srch (some 10) (some 0))) ∧
    ((st.getMessages (mkOpts sid cid srch (some l) (some o))).2 =
      (memFilterMessages (mkOpts sid cid srch (some l) (some o))
        st.discordMessages).length) ∧
    (∀ m, m ∈ memFilterMessages (mkOpts sid cid srch (some l) (some o))
        st.discordMessages ↔
      m ∈ st.discordMessages ∧
        specMatch (mkOpts sid cid srch (some l) (some o)) m) ∧
    ((st.getMessages (mkOpts sid cid srch (some l) (some o))).1 =
      ((sortDescBy (fun m => m.created_at)
        (memFilterMessages (mkOpts sid cid srch (some l) (some o))
          st.discordMessages)).drop o.toNat).take l.toNat) ∧
    ((st.getMessages (mkOpts sid cid srch (some l) (some o))).1.Pairwise
      (fun a b => b.created_at ≤ a.created_at)) ∧
    ((st.getMessages (mkOpts sid cid srch (some l) (some o))).1 ++
      (st.getMessages (mkOpts sid cid srch (some l) (some (o + l)))).1 =
      (st.getMessages (mkOpts sid cid srch (some (2 * l)) (some o))).1) ∧
    ((st.getMessages (mkOpts sid cid srch (some l) (some o))).2 =
      (st.getMessages (mkOpts sid cid srch (some l) (some (o + l)))).2) ∧
    (db.getMessages (mkOpts sid cid srch none none) =
      db.getMessages (mkOpts sid cid srch (some 10) (some 0))) ∧
    ((db.getMessages (mkOpts sid cid srch (some l) (some o))).2 =
      (db.discordMessages.filter (dbMessageCond sid cid srch)).length) ∧
    (∀ m, m ∈ db.discordMessages.filter (dbMessageCond sid cid srch) ↔
      m ∈ db.discordMessages ∧ dbMessageCond sid cid srch m = true) ∧
    ((db.getMessages (mkOpts sid cid srch (some l) (some o))).1 =
      ((sortDescBy (fun m => m.created_at)
        (db.discordMessages.filter
          (dbMessageCond sid cid srch))).drop o.toNat).take l.toNat) ∧
    ((db.getMessages (mkOpts sid cid srch (some l) (some o))).1.Pairwise
      (fun a b => b.created_at ≤ a.created_at)) ∧
    ((db.getMessages (mkOpts sid cid srch (some l) (some o))).1 ++
      (db.getMessages (mkOpts sid cid srch (some l) (some (o + l)))).1 =
      (db.getMessages (mkOpts sid cid srch (some (2 * l)) (some o))).1) ∧
    ((db.getMessages (mkOpts sid cid srch (some l) (some o))).2 =
      (db.getMessages (mkOpts sid cid srch (some l) (some (o + l)))).2) := by
  have hpage : (st.getMessages (mkOpts sid cid srch (some l) (some o))).1 =
      ((sortDescBy (fun m => m.created_at)
        (memFilterMessages (mkOpts sid cid srch (some l) (some o))
          st.discordMessages)).drop o.toNat).take l.toNat := by
    show jsSlice (sortDescBy (fun m => m.created_at)
      (memFilterMessages (mkOpts sid cid srch (some l) (some o))
        st.discordMessages)) o (o + l) = _
    exact jsSlice_nonneg _ o l ho hl
  refine ⟨rfl, rfl,
    fun m => memFilterMessages_mem _ st.discordMessages m, hpage, ?_, ?_, rfl,
    rfl, rfl, fun m => List.mem_filter, rfl, ?_, ?_, rfl⟩
  · rw [hpage]
    exact List.Pairwise.sublist
      ((List.take_sublist _ _).trans (List.drop_sublist _ _))
      (sortDescBy_sorted _ _)
  · show jsSlice (sortDescBy (fun m => m.created_at)
        (memFilterMessages (mkOpts sid cid srch (some l) (some o))
          st.discordMessages)) o (o + l) ++
      jsSlice (sortDescBy (fun m => m.created_at)
        (memFilterMessages (mkOpts sid cid srch (some l) (some o))
          st.discordMessages)) (o + l) ((o + l) + l) =
      jsSlice (sortDescBy (fun m => m.created_at)
        (memFilterMessages (mkOpts sid cid srch (some l) (some o))
          st.discordMessages)) o (o + 2 * l)
    rw [jsSlice_nonneg _ o l ho hl, jsSlice_nonneg _ (o + l) l (by omega) hl,
      jsSlice_nonneg _ o (2 * l) ho (by omega)]
    exact page_glue _ l o hl ho
  · exact List.Pairwise.sublist
      ((List.take_sublist _ _).trans (List.drop_sublist _ _))
      (sortDescBy_sorted _ _)
  · show ((sortDescBy (fun m => m.created_at)
        (db.discordMessages.filter
          (dbMessageCond sid cid srch))).drop o.toNat).take l.toNat ++
      ((sortDescBy (fun m => m.created_at)
        (db.discordMessages.filter
          (dbMessageCond sid cid srch))).drop (o + l).toNat).take l.toNat =
      ((sortDescBy (fun m => m.created_at)
        (db.discordMessages.filter
          (dbMessageCond sid cid srch))).drop o.toNat).take (2 * l).toNat
    exact page_glue _ l o hl ho

/-- In-memory store with 8 messages (spec's pagination scenario). -/
def memC4State : MemStorage :=
  { MemStorage.init with
      discordMessages := (List.range 8).map (fun i => msgInChan (i : Int)) }

/-- Database with the same 8 messages. -/
def dbC4State : DatabaseStorage :=
  { DatabaseStorage.init with
      discordMessages := (List.range 8).map (fun i => msgInChan (i : Int)) }

set_option maxRecDepth 8000 in
/-- Witness for the amended C4: over 8 matches, limit 5 / offset 0 then
limit 5 / offset 5 return 5 then 3 messages, concatenating exactly to the
10-message page, and both report total 8. -/
theorem getMessages_amended_witness :
    ((memC4State.getMessages (mkOpts none none none (some 5) (some 0))).1 ++
      (memC4State.getMessages
        (mkOpts none none none (some 5) (some (0 + 5)))).1 =
      (memC4State.getMessages
        (mkOpts none none none (some (2 * 5)) (some 0))).1) ∧
    (memC4State.getMessages
      (mkOpts none none none (some 5) (some 0))).1.length = 5 ∧
    (memC4State.getMessages
      (mkOpts none none none (some 5) (some (0 + 5)))).1.length = 3 ∧
    (memC4State.getMessages (mkOpts none none none (some 5) (some 0))).2 = 8 ∧
    (memC4State.getMessages
      (mkOpts none none none (some 5) (some (0 + 5)))).2 = 8 ∧
    ((dbC4State.getMessages (mkOpts none none none (some 5) (some 0))).1 ++
      (dbC4State.getMessages
        (mkOpts none none none (some 5) (some (0 + 5)))).1 =
      (dbC4State.getMessages
        (mkOpts none none none (some (2 * 5)) (some 0))).1) := by
  have h := getMessages_amended memC4State dbC4State none none none 5 0
    (by norm_num) (by norm_num)
  exact ⟨h.2.2.2.2.2.1, by decide, by decide, by decide, by decide,
    h.2.2.2.2.2.2.2.2.2.2.2.2.1⟩
